import Mathlib

/-!
Verification of the Baserow file-upload MCP server (`mcp_baserow_image.js`).

The development shallowly embeds the three exported operations of the server
(`uploadImageUrl`, `uploadFile`, `readBaserowStructure`) and the helper
`getFieldId`.  Network effects are modelled by an explicit oracle: each
`fetch` the code can issue is represented by a `Response` value describing how
that request would have gone (transport rejection, non-success HTTP status,
a successfully parsed JSON body, or a success status with a malformed body).
Thrown JavaScript errors are modelled with `Except String`; requests issued
by a call are collected into an explicit log.
-/

set_option maxHeartbeats 1000000

namespace Baserow

/-- A JavaScript number as far as this program can observe it: either `NaN`
(produced by `parseInt` on digit-free input) or an integer. -/
inductive JSNum where
  | nan
  | int (n : Int)
deriving DecidableEq, Repr

/-- Whitespace recognised by JavaScript string trimming / `parseInt`
(restricted to the ASCII whitespace characters). -/
def isJsSpace (c : Char) : Bool :=
  c.toNat == 32 || c.toNat == 9 || c.toNat == 10 || c.toNat == 13 ||
    c.toNat == 11 || c.toNat == 12

def isDecDigit (c : Char) : Bool :=
  48 ≤ c.toNat && c.toNat ≤ 57

def isHexDigit (c : Char) : Bool :=
  isDecDigit c || (97 ≤ c.toNat && c.toNat ≤ 102) || (65 ≤ c.toNat && c.toNat ≤ 70)

def isBinDigit (c : Char) : Bool := c.toNat == 48 || c.toNat == 49

def isOctDigit (c : Char) : Bool := 48 ≤ c.toNat && c.toNat ≤ 55

def decDigitVal (c : Char) : Nat := c.toNat - 48

def hexDigitVal (c : Char) : Nat :=
  if isDecDigit c then c.toNat - 48
  else if 97 ≤ c.toNat then c.toNat - 87
  else c.toNat - 55

/-- Value of a base-10 digit string. -/
def decVal (cs : List Char) : Nat := cs.foldl (fun a c => a * 10 + decDigitVal c) 0

def hexVal (cs : List Char) : Nat := cs.foldl (fun a c => a * 16 + hexDigitVal c) 0

/-- JavaScript string trimming (both ends), as performed by `ToNumber`. -/
def jsTrim (cs : List Char) : List Char :=
  ((cs.dropWhile isJsSpace).reverse.dropWhile isJsSpace).reverse

/-- Drop one optional leading sign character. -/
def dropSign (cs : List Char) : List Char :=
  if cs.head? = some '+' ∨ cs.head? = some '-' then cs.tail else cs

/-- Optional sign followed by a non-empty digit string (the exponent part of a
JavaScript decimal literal). -/
def signedDigits (cs : List Char) : Bool :=
  !(dropSign cs).isEmpty && (dropSign cs).all isDecDigit

/-- The rest of a decimal literal after its mantissa: empty, or `e`/`E`
followed by a signed non-empty digit string. -/
def expTail (cs : List Char) : Bool :=
  if cs.isEmpty then true
  else if cs.head? = some 'e' ∨ cs.head? = some 'E' then signedDigits cs.tail
  else false

/-- A JavaScript `StrDecimalLiteral` without sign: `digits [. digits] [exp]`
or `. digits [exp]`. -/
def validDec (cs : List Char) : Bool :=
  if (cs.dropWhile isDecDigit).head? = some '.' then
    (!(cs.takeWhile isDecDigit).isEmpty ||
        !((cs.dropWhile isDecDigit).tail.takeWhile isDecDigit).isEmpty) &&
      expTail ((cs.dropWhile isDecDigit).tail.dropWhile isDecDigit)
  else
    !(cs.takeWhile isDecDigit).isEmpty && expTail (cs.dropWhile isDecDigit)

/-- Whether a trimmed string is a `0x`/`0b`/`0o`-prefixed numeric literal
(`some b`: it has such a marker and `b` says whether the digits are valid);
`none`: no radix marker. -/
def radixNumeric? (cs : List Char) : Option Bool :=
  if cs.head? = some '0' ∧ (cs.tail.head? = some 'x' ∨ cs.tail.head? = some 'X') then
    some (!(cs.drop 2).isEmpty && (cs.drop 2).all isHexDigit)
  else if cs.head? = some '0' ∧ (cs.tail.head? = some 'b' ∨ cs.tail.head? = some 'B') then
    some (!(cs.drop 2).isEmpty && (cs.drop 2).all isBinDigit)
  else if cs.head? = some '0' ∧ (cs.tail.head? = some 'o' ∨ cs.tail.head? = some 'O') then
    some (!(cs.drop 2).isEmpty && (cs.drop 2).all isOctDigit)
  else none

/-- The non-empty-trimmed-string case of `ToNumber`: a radix-prefixed
literal, or an optionally signed decimal literal or `Infinity`. -/
def numericTail (t : List Char) : Bool :=
  match radixNumeric? t with
  | some b => b
  | none => dropSign t == "Infinity".data || validDec (dropSign t)

/-- ECMAScript `ToNumber` on a string does not yield `NaN`: the trimmed string
is empty, a radix-prefixed literal, or an optionally signed decimal literal or
`Infinity`.  `jsIsNaN s = !jsStrNumeric s` models JavaScript `isNaN(s)`. -/
def jsStrNumeric (s : String) : Bool :=
  if (jsTrim s.data).isEmpty then true else numericTail (jsTrim s.data)

/-- JavaScript `isNaN(s)` for a string argument `s`. -/
def jsIsNaN (s : String) : Bool := !jsStrNumeric s

/-- Whether a list starts with `0x` or `0X` (hex marker for `parseInt`). -/
def hexPfx (cs : List Char) : Bool :=
  decide (cs.head? = some '0' ∧ (cs.tail.head? = some 'x' ∨ cs.tail.head? = some 'X'))

/-- The digit-run part of `parseInt` after whitespace and sign handling:
optional `0x` marker, then the longest digit run; `NaN` when that run is
empty; `sg` is the already-consumed sign. -/
def parseIntCore (body : List Char) (sg : Int) : JSNum :=
  if hexPfx body then
    if ((body.drop 2).takeWhile isHexDigit).isEmpty then JSNum.nan
    else JSNum.int (sg * (hexVal ((body.drop 2).takeWhile isHexDigit) : Int))
  else
    if (body.takeWhile isDecDigit).isEmpty then JSNum.nan
    else JSNum.int (sg * (decVal (body.takeWhile isDecDigit) : Int))

/-- JavaScript `parseInt(s)` with no radix argument: skip leading whitespace,
one optional sign, optional `0x` marker, then the longest digit run; `NaN`
when that run is empty. -/
def jsParseInt (s : String) : JSNum :=
  parseIntCore (dropSign (s.data.dropWhile isJsSpace))
    (if (s.data.dropWhile isJsSpace).head? = some '-' then -1 else 1)

/-- The regular-expression test `/^\d+$/.test s`. -/
def isDigitsOnly (s : String) : Bool := !s.data.isEmpty && s.data.all isDecDigit

/-- A field record as read from the fields-list JSON by `getFieldId`
(only `id` and `name` are consulted). -/
structure FieldRec where
  id : Int
  name : String
deriving DecidableEq, Repr

/-- Outcome of one `fetch`: the promise rejects (transport failure), the
response has a non-success status, the response is ok and its JSON body
parses to `v`, or the response is ok but `json()` throws. -/
inductive Response (α : Type) where
  | reject (msg : String)
  | notOk (status : Nat) (statusText : String) (body : String)
  | ok (v : α)
  | okMalformed (msg : String)
deriving DecidableEq

/-- A field reference as `getFieldId` may receive it: a string (the only form
the tool layer produces) or a raw JavaScript number. -/
inductive FieldRef where
  | str (s : String)
  | num (n : JSNum)
deriving DecidableEq

/-- The decimal digit character for a remainder `r < 10`. -/
def decDigitChar (r : Nat) : Char :=
  if r = 0 then '0' else if r = 1 then '1' else if r = 2 then '2'
  else if r = 3 then '3' else if r = 4 then '4' else if r = 5 then '5'
  else if r = 6 then '6' else if r = 7 then '7' else if r = 8 then '8' else '9'

/-- Fuel-driven digit expansion; `fuel > m` always suffices. -/
def natReprAux : Nat → Nat → List Char
  | 0, _ => []
  | fuel + 1, m =>
    if m < 10 then [decDigitChar m]
    else natReprAux fuel (m / 10) ++ [decDigitChar (m % 10)]

/-- Canonical base-10 digit list of a natural number (no leading zeros),
as produced by JavaScript `String(n)` for non-negative integers. -/
def natRepr (m : Nat) : List Char := natReprAux (m + 1) m

/-- Canonical decimal representation of an integer, as produced by
JavaScript `String(n)`. -/
def intRepr (n : Int) : List Char :=
  if n < 0 then '-' :: natRepr n.natAbs else natRepr n.toNat

/-- JavaScript `String(x)` for the values a field reference can hold. -/
def refToString : FieldRef → String
  | .str s => s
  | .num (.int n) => ⟨intRepr n⟩
  | .num .nan => "NaN"

/-- JavaScript `isNaN(x)` for a field reference. -/
def refIsNaN : FieldRef → Bool
  | .str s => jsIsNaN s
  | .num .nan => true
  | .num (.int _) => false

/-- The name-resolution tail of `getFieldId`: fetch the field list and find
the first field whose name strictly equals the reference.  Any throw inside
(`!fieldsResponse.ok`, a rejected fetch, malformed JSON, or no matching
field) is caught by `getFieldId`'s `catch` and becomes `null`.  The second
component records that the fields fetch was issued. -/
def nameLookup (s : String) (fieldsResp : Response (List FieldRec)) :
    Option JSNum × Bool :=
  match fieldsResp with
  | .ok fields =>
    match fields.find? (fun f => f.name == s) with
    | some f => (some (JSNum.int f.id), true)
    | none => (none, true)
  | _ => (none, true)

/-- `s.replace('field_', '')` for a string known to start with `field_`:
the first occurrence is the six-character prefix. -/
def stripFieldMarker (s : String) : String := ⟨s.data.drop 6⟩

/-- `getFieldId(tableId, fieldNameOrId, apiUrl, apiToken)`: resolves a field
reference to a numeric id.  Numeric-looking references are parsed directly
with no network call; `field_<n>` references with a numeric tail are parsed
directly; everything else is resolved by name against the fetched field list.
A `NaN` number reference throws a `TypeError` at `.startsWith` which the
`catch` turns into `null`.  Returns the resolved value (`none` = `null`) and
whether the fields fetch was issued. -/
def getFieldId (tableId : String) (fieldNameOrId : FieldRef)
    (fieldsResp : Response (List FieldRec)) : Option JSNum × Bool :=
  if !refIsNaN fieldNameOrId || isDigitsOnly (refToString fieldNameOrId) then
    (some (jsParseInt (refToString fieldNameOrId)), false)
  else
    match fieldNameOrId with
    | .num _ => (none, false)
    | .str s =>
      if ("field_".data).isPrefixOf s.data then
        let idPart := stripFieldMarker s
        if !jsIsNaN idPart then (some (jsParseInt idPart), false)
        else nameLookup s fieldsResp
      else nameLookup s fieldsResp

/-! ### Arithmetic facts about the string/number model -/

theorem digit_not_space {c : Char} (h : isDecDigit c = true) : isJsSpace c = false := by
  simp only [isDecDigit, Bool.and_eq_true, decide_eq_true_eq] at h
  simp only [isJsSpace, Bool.or_eq_false_iff, beq_eq_false_iff_ne, ne_eq]
  omega

theorem decDigit_ne {c : Char} (hc : isDecDigit c = true) (x : Char)
    (hx : isDecDigit x = false) : c ≠ x := by
  intro h
  subst h
  rw [hc] at hx
  exact Bool.noConfusion hx

theorem dropWhile_of_all_false {p : Char → Bool} (l : List Char)
    (h : ∀ c ∈ l, p c = false) : l.dropWhile p = l := by
  cases l with
  | nil => rfl
  | cons a t =>
    exact List.dropWhile_cons_of_neg (by simp [h a (List.mem_cons_self a t)])

theorem jsTrim_of_all_digits (l : List Char) (h : ∀ c ∈ l, isDecDigit c = true) :
    jsTrim l = l := by
  unfold jsTrim
  rw [dropWhile_of_all_false l (fun c hc => digit_not_space (h c hc)),
    dropWhile_of_all_false l.reverse
      (fun c hc => digit_not_space (h c (List.mem_reverse.mp hc))),
    List.reverse_reverse]

theorem decDigitVal_decDigitChar {r : Nat} (h : r < 10) :
    decDigitVal (decDigitChar r) = r := by
  interval_cases r <;> decide

theorem isDecDigit_decDigitChar {r : Nat} (h : r < 10) :
    isDecDigit (decDigitChar r) = true := by
  interval_cases r <;> decide

theorem natReprAux_digits :
    ∀ (fuel m : Nat), m < fuel → ∀ c ∈ natReprAux fuel m, isDecDigit c = true := by
  intro fuel
  induction fuel with
  | zero => intro m hm; omega
  | succ fuel ih =>
    intro m hm c hc
    rw [natReprAux] at hc
    split at hc
    · next h =>
      simp only [List.mem_singleton] at hc
      subst hc
      exact isDecDigit_decDigitChar h
    · next h =>
      rcases List.mem_append.mp hc with h1 | h2
      · exact ih (m / 10) (by omega) c h1
      · simp only [List.mem_singleton] at h2
        subst h2
        exact isDecDigit_decDigitChar (Nat.mod_lt _ (by omega))

theorem natRepr_digits (m : Nat) : ∀ c ∈ natRepr m, isDecDigit c = true :=
  natReprAux_digits (m + 1) m (by omega)

theorem natRepr_ne_nil (m : Nat) : natRepr m ≠ [] := by
  rw [natRepr, natReprAux]
  split <;> simp

theorem decVal_natReprAux :
    ∀ (fuel m : Nat), m < fuel → decVal (natReprAux fuel m) = m := by
  intro fuel
  induction fuel with
  | zero => intro m hm; omega
  | succ fuel ih =>
    intro m hm
    rw [natReprAux]
    split
    · next h =>
      simp [decVal, decDigitVal_decDigitChar h]
    · next h =>
      have hstep : decVal (natReprAux fuel (m / 10) ++ [decDigitChar (m % 10)]) =
          decVal (natReprAux fuel (m / 10)) * 10 + decDigitVal (decDigitChar (m % 10)) := by
        simp [decVal, List.foldl_append]
      rw [hstep, ih (m / 10) (by omega),
        decDigitVal_decDigitChar (Nat.mod_lt _ (by omega))]
      omega

theorem decVal_natRepr (m : Nat) : decVal (natRepr m) = m :=
  decVal_natReprAux (m + 1) m (by omega)

theorem hexPfx_of_digits (l : List Char) (h : ∀ c ∈ l, isDecDigit c = true) :
    hexPfx l = false := by
  simp only [hexPfx, decide_eq_false_iff_not]
  rintro ⟨h0, hx⟩
  cases l with
  | nil => simp at h0
  | cons a t =>
    cases t with
    | nil => simp at hx
    | cons b t2 =>
      have hb := h b (by simp)
      rcases hx with hx | hx <;> simp only [List.tail_cons, List.head?_cons,
        Option.some.injEq] at hx <;> subst hx <;> exact absurd hb (by decide)

theorem dropSign_cons_of_ne {c : Char} (cs : List Char) (h1 : c ≠ '+') (h2 : c ≠ '-') :
    dropSign (c :: cs) = c :: cs := by
  unfold dropSign
  rw [if_neg (by simp [h1, h2])]

theorem dropSign_minus (l : List Char) : dropSign ('-' :: l) = l := by
  simp [dropSign]

theorem parseIntCore_digits (body : List Char) (sg : Int) (h1 : body ≠ [])
    (h2 : ∀ c ∈ body, isDecDigit c = true) :
    parseIntCore body sg = .int (sg * (decVal body : Int)) := by
  unfold parseIntCore
  rw [if_neg (by simp [hexPfx_of_digits _ h2]), List.takeWhile_eq_self_iff.mpr h2,
    if_neg (by simp [List.isEmpty_iff, h1])]

theorem jsParseInt_digits (s : String) (h1 : s.data ≠ [])
    (h2 : ∀ c ∈ s.data, isDecDigit c = true) :
    jsParseInt s = .int (decVal s.data) := by
  obtain ⟨c, cs, hcs⟩ := List.exists_cons_of_ne_nil h1
  have hc : isDecDigit c = true := h2 c (by rw [hcs]; exact List.mem_cons_self _ _)
  have hcm : c ≠ '-' := decDigit_ne hc '-' (by decide)
  have hcp : c ≠ '+' := decDigit_ne hc '+' (by decide)
  have hall : ∀ x ∈ c :: cs, isDecDigit x = true := fun x hx => h2 x (hcs ▸ hx)
  simp only [jsParseInt]
  rw [hcs, dropWhile_of_all_false _ (fun x hx => digit_not_space (hall x hx)),
    dropSign_cons_of_ne cs hcp hcm, if_neg (by simp [hcm]),
    parseIntCore_digits _ _ (by simp) hall, one_mul]

theorem radixNumeric?_of_digits (l : List Char) (h : ∀ c ∈ l, isDecDigit c = true) :
    radixNumeric? l = none := by
  unfold radixNumeric?
  cases l with
  | nil => simp
  | cons a t =>
    cases t with
    | nil => simp
    | cons b t2 =>
      have hb := h b (by simp)
      have hx : b ≠ 'x' := decDigit_ne hb 'x' (by decide)
      have hX : b ≠ 'X' := decDigit_ne hb 'X' (by decide)
      have hbb : b ≠ 'b' := decDigit_ne hb 'b' (by decide)
      have hB : b ≠ 'B' := decDigit_ne hb 'B' (by decide)
      have ho : b ≠ 'o' := decDigit_ne hb 'o' (by decide)
      have hO : b ≠ 'O' := decDigit_ne hb 'O' (by decide)
      simp [hx, hX, hbb, hB, ho, hO]

theorem validDec_digits (l : List Char) (h1 : l ≠ [])
    (h2 : ∀ c ∈ l, isDecDigit c = true) : validDec l = true := by
  simp only [validDec]
  rw [List.takeWhile_eq_self_iff.mpr h2,
    List.dropWhile_eq_nil_iff.mpr (fun x hx => by simp [h2 x hx])]
  rw [if_neg (by simp)]
  simp [expTail, List.isEmpty_iff, h1]

theorem jsStrNumeric_of_digits (s : String) (h1 : s.data ≠ [])
    (h2 : ∀ c ∈ s.data, isDecDigit c = true) : jsStrNumeric s = true := by
  obtain ⟨c, cs, hcs⟩ := List.exists_cons_of_ne_nil h1
  have hc : isDecDigit c = true := h2 c (by rw [hcs]; exact List.mem_cons_self _ _)
  have hcm : c ≠ '-' := decDigit_ne hc '-' (by decide)
  have hcp : c ≠ '+' := decDigit_ne hc '+' (by decide)
  have hall : ∀ x ∈ c :: cs, isDecDigit x = true := fun x hx => h2 x (hcs ▸ hx)
  simp only [jsStrNumeric]
  rw [jsTrim_of_all_digits _ h2, hcs, if_neg (by simp)]
  simp only [numericTail, radixNumeric?_of_digits _ hall]
  rw [dropSign_cons_of_ne cs hcp hcm]
  simp [validDec_digits _ (by simp) hall]

theorem jsParseInt_intRepr (n : Int) : jsParseInt ⟨intRepr n⟩ = .int n := by
  unfold intRepr
  split
  · next hneg =>
    have hall := natRepr_digits n.natAbs
    show parseIntCore (natRepr n.natAbs) (-1) = JSNum.int n
    rw [parseIntCore_digits _ _ (natRepr_ne_nil _) hall, decVal_natRepr]
    congr 1
    omega
  · next hpos =>
    have h := jsParseInt_digits ⟨natRepr n.toNat⟩ (natRepr_ne_nil _) (natRepr_digits _)
    rw [h]
    rw [show (String.mk (natRepr n.toNat)).data = natRepr n.toNat from rfl]
    rw [decVal_natRepr]
    congr 1
    omega

theorem jsTrim_eq_self (l : List Char)
    (hh : ∀ c, l.head? = some c → isJsSpace c = false)
    (hl : ∀ c, l.getLast? = some c → isJsSpace c = false) : jsTrim l = l := by
  unfold jsTrim
  have hd : l.dropWhile isJsSpace = l := by
    cases l with
    | nil => rfl
    | cons a t => exact List.dropWhile_cons_of_neg (by simp [hh a rfl])
  rw [hd]
  have hr : l.reverse.dropWhile isJsSpace = l.reverse := by
    cases hrev : l.reverse with
    | nil => rfl
    | cons a t =>
      have ha : l.getLast? = some a := by rw [← List.head?_reverse, hrev]; rfl
      exact List.dropWhile_cons_of_neg (by simp [hl a ha])
  rw [hr, List.reverse_reverse]

theorem jsStrNumeric_fieldMarker (s d : String) (hs : s.data = "field_".data ++ d.data)
    (h1 : d.data ≠ []) (h2 : ∀ c ∈ d.data, isDecDigit c = true) :
    jsStrNumeric s = false := by
  have hform : s.data = 'f' :: ("ield_".data ++ d.data) := by rw [hs]; rfl
  obtain ⟨cl, hcl⟩ : ∃ c, d.data.getLast? = some c := by
    cases hgl : d.data.getLast? with
    | none => exact absurd (List.getLast?_eq_none_iff.mp hgl) h1
    | some c => exact ⟨c, rfl⟩
  have hclmem : cl ∈ d.data := List.mem_of_getLast?_eq_some hcl
  have htrim : jsTrim s.data = s.data := by
    apply jsTrim_eq_self
    · intro c hc
      rw [hform] at hc
      simp only [List.head?_cons, Option.some.injEq] at hc
      subst hc
      decide
    · intro c hc
      rw [hs, List.getLast?_append, hcl, Option.or_some] at hc
      simp only [Option.some.injEq] at hc
      subst hc
      exact digit_not_space (h2 _ hclmem)
  simp only [jsStrNumeric]
  rw [htrim, hform, if_neg (by simp)]
  simp only [numericTail]
  have hrad : radixNumeric? ('f' :: ("ield_".data ++ d.data)) = none := by
    unfold radixNumeric?
    rw [if_neg, if_neg, if_neg] <;>
      · rintro ⟨h0, -⟩
        simp only [List.head?_cons, Option.some.injEq] at h0
        exact (by decide : ('f' : Char) ≠ '0') h0
  rw [hrad]
  have hf1 : ¬(isDecDigit 'f' = true) := by decide
  rw [dropSign_cons_of_ne _ (by decide) (by decide)]
  have hinf : (('f' :: ("ield_".data ++ d.data)) == "Infinity".data) = false := by
    rw [beq_eq_false_iff_ne]
    intro hcon
    rw [show ("Infinity".data) = 'I' :: "nfinity".data from rfl] at hcon
    injection hcon with hc1 _
    exact (by decide : ('f' : Char) ≠ 'I') hc1
  have hvd : validDec ('f' :: ("ield_".data ++ d.data)) = false := by
    simp only [validDec, List.takeWhile_cons_of_neg hf1, List.dropWhile_cons_of_neg hf1,
      List.head?_cons]
    rw [if_neg (by
      intro hcon
      simp only [Option.some.injEq] at hcon
      exact (by decide : ('f' : Char) ≠ '.') hcon)]
    simp
  rw [hinf, hvd]
  rfl

theorem isDigitsOnly_fieldMarker (s d : String) (hs : s.data = "field_".data ++ d.data) :
    isDigitsOnly s = false := by
  have hform : s.data = 'f' :: ("ield_".data ++ d.data) := by rw [hs]; rfl
  simp [isDigitsOnly, hform, List.all_cons, show isDecDigit 'f' = false from by decide]

theorem fieldMarker_isPrefixOf (s d : String) (hs : s.data = "field_".data ++ d.data) :
    ("field_".data).isPrefixOf s.data = true := by
  rw [hs]
  simp only [List.isPrefixOf_iff_prefix]
  exact List.prefix_append _ _

theorem stripFieldMarker_eq (s d : String) (hs : s.data = "field_".data ++ d.data) :
    stripFieldMarker s = d := by
  unfold stripFieldMarker
  rw [hs, List.drop_left' (by rfl : ("field_".data).length = 6)]

/-! ### Claim theorems about `getFieldId` -/

/-- C7: for every field reference that is a purely numeric string or a raw
integer number, and for every field reference of the form `field_<digits>`,
`getFieldId` returns the digits parsed as a number (`decVal`), and the second
component `false` records that no fields fetch — hence no network request —
was issued. -/
theorem c7_getFieldId_direct_forms (tableId : String) (resp : Response (List FieldRec)) :
    (∀ s : String, isDigitsOnly s = true →
      getFieldId tableId (.str s) resp = (some (.int (decVal s.data)), false)) ∧
    (∀ n : Int, getFieldId tableId (.num (.int n)) resp = (some (.int n), false)) ∧
    (∀ s d : String, s.data = "field_".data ++ d.data → isDigitsOnly d = true →
      getFieldId tableId (.str s) resp = (some (.int (decVal d.data)), false)) := by
  refine ⟨?_, ?_, ?_⟩
  · intro s hds
    have hparts := hds
    simp only [isDigitsOnly, Bool.and_eq_true, Bool.not_eq_true', List.isEmpty_eq_false,
      List.all_eq_true] at hparts
    obtain ⟨hne, hall⟩ := hparts
    simp only [getFieldId, refToString, hds, Bool.or_true, if_true]
    rw [jsParseInt_digits s hne hall]
  · intro n
    simp only [getFieldId, refIsNaN, Bool.not_false, Bool.true_or, if_true, refToString]
    rw [jsParseInt_intRepr]
  · intro s d hs hdd
    have hparts := hdd
    simp only [isDigitsOnly, Bool.and_eq_true, Bool.not_eq_true', List.isEmpty_eq_false,
      List.all_eq_true] at hparts
    obtain ⟨hne, hall⟩ := hparts
    have hnum : jsStrNumeric s = false := jsStrNumeric_fieldMarker s d hs hne hall
    have hian : jsIsNaN s = true := by simp [jsIsNaN, hnum]
    have hdo : isDigitsOnly s = false := isDigitsOnly_fieldMarker s d hs
    have hdnum : jsIsNaN d = false := by
      simp [jsIsNaN, jsStrNumeric_of_digits d hne hall]
    have hpre := fieldMarker_isPrefixOf s d hs
    have hstrip := stripFieldMarker_eq s d hs
    simp [getFieldId, refIsNaN, refToString, hian, hdo, hpre, hstrip, hdnum,
      jsParseInt_digits d hne hall]

/-- Witness for C7 at concrete inputs. -/
theorem c7_getFieldId_direct_forms_witness :
    (isDigitsOnly "123" = true ∧
      getFieldId "9" (.str "123") (.ok []) = (some (.int (decVal "123".data)), false)) ∧
    getFieldId "9" (.num (.int (-42))) (.ok []) = (some (.int (-42)), false) ∧
    ("field_77".data = "field_".data ++ "77".data ∧ isDigitsOnly "77" = true ∧
      getFieldId "9" (.str "field_77") (.ok []) = (some (.int (decVal "77".data)), false)) :=
  ⟨⟨by decide, (c7_getFieldId_direct_forms "9" (.ok [])).1 "123" (by decide)⟩,
    (c7_getFieldId_direct_forms "9" (.ok [])).2.1 (-42),
    ⟨by decide, by decide,
      (c7_getFieldId_direct_forms "9" (.ok [])).2.2 "field_77" "77" (by decide) (by decide)⟩⟩

/-- C10: field references that are neither digit-only nor `field_<digits>`
but still not `NaN` under JavaScript coercion — such as `"12.5"`, `"1e3"`, a
whitespace-padded digit string, or the empty string — are parsed by
`parseInt` truncation (to `NaN` for the empty string) without any network
request; consequently, for any reference with `jsIsNaN` false, `getFieldId`
never consults the fetched field list. -/
theorem c10_getFieldId_numericish_bypass (tableId : String) :
    getFieldId tableId (.str "12.5") (.notOk 0 "" "") = (some (.int 12), false) ∧
    getFieldId tableId (.str "1e3") (.notOk 0 "" "") = (some (.int 1), false) ∧
    getFieldId tableId (.str " 42 ") (.notOk 0 "" "") = (some (.int 42), false) ∧
    getFieldId tableId (.str "") (.notOk 0 "" "") = (some .nan, false) ∧
    (∀ (s : String) (r r' : Response (List FieldRec)), jsIsNaN s = false →
      (getFieldId tableId (.str s) r).2 = false ∧
      getFieldId tableId (.str s) r = getFieldId tableId (.str s) r') := by
  refine ⟨rfl, rfl, rfl, rfl, ?_⟩
  intro s r r' h
  simp [getFieldId, refIsNaN, h]

/-- Witness for C10's quantified part at a concrete input. -/
theorem c10_getFieldId_numericish_bypass_witness :
    jsIsNaN "12.5" = false ∧
    ((getFieldId "9" (.str "12.5") (.notOk 0 "" "")).2 = false ∧
      getFieldId "9" (.str "12.5") (.notOk 0 "" "") =
        getFieldId "9" (.str "12.5") (.ok [])) :=
  ⟨by decide, (c10_getFieldId_numericish_bypass "9").2.2.2.2 "12.5"
    (.notOk 0 "" "") (.ok []) (by decide)⟩

/-! ### The upload-and-attach orchestrator (`uploadImageUrl`, `uploadFile`) -/

/-- JavaScript truthiness of an optional string argument: absent (`undefined`)
and the empty string are both falsy. -/
def truthyStr : Option String → Bool
  | none => false
  | some s => s != ""

/-- JavaScript truthiness of the value `getFieldId` returned: `null`, `NaN`
and `0` are falsy. -/
def jsTruthyNum : Option JSNum → Bool
  | none => false
  | some .nan => false
  | some (.int n) => n != 0

/-- JavaScript string coercion of the resolved field id, as interpolated into
the patch-payload key `field_<id>`. -/
def fieldIdStr : Option JSNum → String
  | some (.int n) => ⟨intRepr n⟩
  | some .nan => "NaN"
  | none => "null"

/-- `path.basename` for POSIX paths: the part after the last `/`. -/
def jsBasename (p : String) : String :=
  ⟨(p.data.reverse.takeWhile (fun c => c != '/')).reverse⟩

/-- The orchestrator's return value.  `updated_row`/`row_update_error` are
present only when set by the attach phase. -/
structure OperationResult (U R : Type) where
  success : Bool
  uploaded_file : U
  updated_row : Option R := none
  row_update_error : Option String := none
deriving DecidableEq

/-- One HTTP request issued by an upload call, in issue order.  The patch
request records its JSON payload as a key/value list. -/
inductive Request (U : Type) where
  | uploadViaUrl (url : String) (filename : Option String)
  | uploadFileBytes (filename : String)
  | fieldsFetch (tableId : String)
  | patchRow (tableId rowId : String) (payload : List (String × List U))
deriving DecidableEq

/-- Oracle for the fetches an upload call can issue: the upload POST, the
fields list GET inside `getFieldId`, and the row PATCH. -/
structure UploadEnv (U R : Type) where
  uploadResp : Response U
  fieldsResp : Response (List FieldRec)
  patchResp : Response R

def resolveErrMsg (fref tid : String) : String :=
  s!"Failed to resolve field \"{fref}\" in table {tid}"

def patchErrMsg (status : Nat) (statusText : String) : String :=
  s!"Failed to update row: {status} {statusText}"

def uploadErrMsg (status : Nat) (statusText body : String) : String :=
  s!"Upload failed: {status} {statusText}. {body}"

/-- The fields-fetch log entry of `getFieldId`, present when it consulted the
field list. -/
def fetchLog {U : Type} (tid : String) (fetched : Bool) : List (Request U) :=
  if fetched then [Request.fieldsFetch tid] else []

/-- Step 2 of both orchestrator entry points (the source duplicates this block
verbatim in `uploadImageUrl` and `uploadFile`): when `tableId && rowId &&
fieldName`, resolve the field, falsy resolution becomes `row_update_error`,
otherwise PATCH the row with `{ field_<id>: [uploadResult] }`; a non-ok patch
status becomes `row_update_error`, an ok one becomes `updated_row`.  A
rejecting patch fetch or malformed patch body throws (raw message, wrapped by
each caller's catch). -/
def attachPhase {U R : Type} (uploadResult : U)
    (tableId rowId fieldName : Option String) (env : UploadEnv U R) :
    Except String (OperationResult U R) × List (Request U) :=
  if truthyStr tableId && truthyStr rowId && truthyStr fieldName then
    let tid := tableId.getD ""
    let rid := rowId.getD ""
    let fref := fieldName.getD ""
    let fr := getFieldId tid (.str fref) env.fieldsResp
    if !jsTruthyNum fr.1 then
      (.ok { success := true, uploaded_file := uploadResult,
             row_update_error := some (resolveErrMsg fref tid) },
        fetchLog tid fr.2)
    else
      let payload : List (String × List U) := [("field_" ++ fieldIdStr fr.1, [uploadResult])]
      let log2 := fetchLog tid fr.2 ++ [Request.patchRow tid rid payload]
      match env.patchResp with
      | .reject m => (.error m, log2)
      | .okMalformed m => (.error m, log2)
      | .notOk status statusText _ =>
        (.ok { success := true, uploaded_file := uploadResult,
               row_update_error := some (patchErrMsg status statusText) }, log2)
      | .ok updateResult =>
        (.ok { success := true, uploaded_file := uploadResult,
               updated_row := some updateResult }, log2)
  else
    (.ok { success := true, uploaded_file := uploadResult }, [])

/-- `uploadImageUrl(url, filename, tableId, rowId, fieldName)`: check the
credential context, POST the upload-via-url request, then run the attach
phase; any throw inside the `try` is re-thrown as `Upload failed: <msg>`. -/
def uploadImageUrl {U R : Type} (url : String)
    (filename tableId rowId fieldName : Option String)
    (apiUrl apiToken : Option String) (env : UploadEnv U R) :
    Except String (OperationResult U R) × List (Request U) :=
  if !(truthyStr apiUrl && truthyStr apiToken) then
    (.error "BASEROW_API_URL and BASEROW_API_TOKEN environment variables are required", [])
  else
    match env.uploadResp with
    | .reject m => (.error ("Upload failed: " ++ m), [Request.uploadViaUrl url filename])
    | .okMalformed m => (.error ("Upload failed: " ++ m), [Request.uploadViaUrl url filename])
    | .notOk status statusText body =>
      (.error ("Upload failed: " ++ uploadErrMsg status statusText body),
        [Request.uploadViaUrl url filename])
    | .ok uploadResult =>
      match attachPhase uploadResult tableId rowId fieldName env with
      | (.error m, log) => (.error ("Upload failed: " ++ m), Request.uploadViaUrl url filename :: log)
      | (.ok r, log) => (.ok r, Request.uploadViaUrl url filename :: log)

/-- `uploadFile(filePath, filename, tableId, rowId, fieldName)`: check the
credential context, check the file exists (`File not found` throw before any
network call), POST the multipart upload with `filename ||
path.basename(filePath)`, then run the attach phase; any throw inside the
`try` is re-thrown as `File upload failed: <msg>`. -/
def uploadFile {U R : Type} (filePath : String)
    (filename tableId rowId fieldName : Option String)
    (apiUrl apiToken : Option String) (fileExists : Bool) (env : UploadEnv U R) :
    Except String (OperationResult U R) × List (Request U) :=
  if !(truthyStr apiUrl && truthyStr apiToken) then
    (.error "BASEROW_API_URL and BASEROW_API_TOKEN environment variables are required", [])
  else if !fileExists then
    (.error ("File upload failed: " ++ s!"File not found: {filePath}"), [])
  else
    match env.uploadResp with
    | .reject m =>
      (.error ("File upload failed: " ++ m),
        [Request.uploadFileBytes (if truthyStr filename then filename.getD "" else jsBasename filePath)])
    | .okMalformed m =>
      (.error ("File upload failed: " ++ m),
        [Request.uploadFileBytes (if truthyStr filename then filename.getD "" else jsBasename filePath)])
    | .notOk status statusText body =>
      (.error ("File upload failed: " ++ uploadErrMsg status statusText body),
        [Request.uploadFileBytes (if truthyStr filename then filename.getD "" else jsBasename filePath)])
    | .ok uploadResult =>
      match attachPhase uploadResult tableId rowId fieldName env with
      | (.error m, log) =>
        (.error ("File upload failed: " ++ m),
          Request.uploadFileBytes (if truthyStr filename then filename.getD "" else jsBasename filePath) :: log)
      | (.ok r, log) =>
        (.ok r,
          Request.uploadFileBytes (if truthyStr filename then filename.getD "" else jsBasename filePath) :: log)

/-! ### Facts about the orchestrator -/

theorem truthyStr_isSome {o : Option String} (h : truthyStr o = true) : o.isSome = true := by
  cases o with
  | none => exact Bool.noConfusion h
  | some s => rfl

theorem jsTruthyNum_true_iff (o : Option JSNum) :
    jsTruthyNum o = true ↔ ∃ n : Int, o = some (.int n) ∧ n ≠ 0 := by
  cases o with
  | none => simp [jsTruthyNum]
  | some v =>
    cases v with
    | nan => simp [jsTruthyNum]
    | int n => simp [jsTruthyNum, bne_iff_ne]

theorem attachPhase_ok_shape {U R : Type} (u : U) (tableId rowId fieldName : Option String)
    (env : UploadEnv U R) (res : OperationResult U R)
    (h : (attachPhase u tableId rowId fieldName env).1 = .ok res) :
    res.success = true ∧ res.uploaded_file = u ∧
    ¬(res.updated_row.isSome = true ∧ res.row_update_error.isSome = true) ∧
    (res.updated_row.isSome = true → ∃ r, env.patchResp = .ok r) ∧
    (res.row_update_error.isSome = true →
      jsTruthyNum (getFieldId (tableId.getD "") (.str (fieldName.getD "")) env.fieldsResp).1 = false ∨
      ∃ s st b, env.patchResp = .notOk s st b) ∧
    ((truthyStr tableId && truthyStr rowId && truthyStr fieldName) = false →
      res.updated_row = none ∧ res.row_update_error = none) := by
  simp only [attachPhase] at h
  split at h
  · next htr =>
    split at h
    · next hres =>
      simp only [Prod.fst, Except.ok.injEq] at h
      subst h
      refine ⟨rfl, rfl, by simp, by simp, fun _ => Or.inl (by
        simpa using hres), fun hfc => ?_⟩
      · rw [htr] at hfc
        exact Bool.noConfusion hfc
    · next hres =>
      split at h
      · next m heq => simp at h
      · next m heq => simp at h
      · next s st b heq =>
        simp only [Prod.fst, Except.ok.injEq] at h
        subst h
        refine ⟨rfl, rfl, by simp, by simp, fun _ => Or.inr ⟨s, st, b, heq⟩, fun hfc => ?_⟩
        rw [htr] at hfc
        exact Bool.noConfusion hfc
      · next r heq =>
        simp only [Prod.fst, Except.ok.injEq] at h
        subst h
        refine ⟨rfl, rfl, by simp, fun _ => ⟨r, heq⟩, by simp, fun hfc => ?_⟩
        rw [htr] at hfc
        exact Bool.noConfusion hfc
  · next htr =>
    simp only [Prod.fst, Except.ok.injEq] at h
    subst h
    exact ⟨rfl, rfl, by simp, by simp, by simp, fun _ => ⟨rfl, rfl⟩⟩

theorem uploadImageUrl_ok_inv {U R : Type} {url : String}
    {filename tableId rowId fieldName apiUrl apiToken : Option String}
    {env : UploadEnv U R} {res : OperationResult U R}
    (h : (uploadImageUrl url filename tableId rowId fieldName apiUrl apiToken env).1 = .ok res) :
    ∃ u, env.uploadResp = .ok u ∧ (attachPhase u tableId rowId fieldName env).1 = .ok res := by
  cases henv : env.uploadResp with
  | reject m =>
    simp only [uploadImageUrl, henv] at h
    split at h <;> simp at h
  | okMalformed m =>
    simp only [uploadImageUrl, henv] at h
    split at h <;> simp at h
  | notOk s st b =>
    simp only [uploadImageUrl, henv] at h
    split at h <;> simp at h
  | ok u =>
    simp only [uploadImageUrl, henv] at h
    split at h
    · simp at h
    · rcases ha : attachPhase u tableId rowId fieldName env with ⟨e, log⟩
      rw [ha] at h
      cases e with
      | error m => simp at h
      | ok r =>
        simp only [Prod.fst, Except.ok.injEq] at h
        subst h
        exact ⟨u, rfl, by rw [ha]⟩

theorem uploadFile_ok_inv {U R : Type} {filePath : String}
    {filename tableId rowId fieldName apiUrl apiToken : Option String}
    {fileExists : Bool} {env : UploadEnv U R} {res : OperationResult U R}
    (h : (uploadFile filePath filename tableId rowId fieldName apiUrl apiToken
      fileExists env).1 = .ok res) :
    ∃ u, env.uploadResp = .ok u ∧ (attachPhase u tableId rowId fieldName env).1 = .ok res := by
  cases henv : env.uploadResp with
  | reject m =>
    simp only [uploadFile, henv] at h
    split at h
    · simp at h
    · split at h <;> simp at h
  | okMalformed m =>
    simp only [uploadFile, henv] at h
    split at h
    · simp at h
    · split at h <;> simp at h
  | notOk s st b =>
    simp only [uploadFile, henv] at h
    split at h
    · simp at h
    · split at h <;> simp at h
  | ok u =>
    simp only [uploadFile, henv] at h
    split at h
    · simp at h
    · split at h
      · simp at h
      · rcases ha : attachPhase u tableId rowId fieldName env with ⟨e, log⟩
        rw [ha] at h
        cases e with
        | error m => simp at h
        | ok r =>
          simp only [Prod.fst, Except.ok.injEq] at h
          subst h
          exact ⟨u, rfl, by rw [ha]⟩

/-- C1: every upload call that does not throw yields `success = true` with the
uploaded file; it carries at most one of `updated_row` (only when the patch
returned ok) or `row_update_error` (only when resolution was falsy or the
patch status was non-ok), and neither when the table/row/field triple was not
fully supplied. -/
theorem c1_success_result_shape {U R : Type} (url filePath : String)
    (filename tableId rowId fieldName apiUrl apiToken : Option String)
    (fileExists : Bool) (env : UploadEnv U R) (res : OperationResult U R)
    (h : (uploadImageUrl url filename tableId rowId fieldName apiUrl apiToken env).1 = .ok res ∨
      (uploadFile filePath filename tableId rowId fieldName apiUrl apiToken
        fileExists env).1 = .ok res) :
    res.success = true ∧
    ¬(res.updated_row.isSome = true ∧ res.row_update_error.isSome = true) ∧
    (res.updated_row.isSome = true → ∃ r, env.patchResp = .ok r) ∧
    (res.row_update_error.isSome = true →
      jsTruthyNum (getFieldId (tableId.getD "") (.str (fieldName.getD "")) env.fieldsResp).1 = false ∨
      ∃ s st b, env.patchResp = .notOk s st b) ∧
    (¬(tableId.isSome = true ∧ rowId.isSome = true ∧ fieldName.isSome = true) →
      res.updated_row = none ∧ res.row_update_error = none) := by
  have key : ∃ u, env.uploadResp = .ok u ∧
      (attachPhase u tableId rowId fieldName env).1 = .ok res := by
    rcases h with h | h
    · exact uploadImageUrl_ok_inv h
    · exact uploadFile_ok_inv h
  obtain ⟨u, -, hat⟩ := key
  obtain ⟨h1, _, h3, h4, h5, h6⟩ := attachPhase_ok_shape u _ _ _ _ _ hat
  refine ⟨h1, h3, h4, h5, fun hns => h6 ?_⟩
  rcases hb : (truthyStr tableId && truthyStr rowId && truthyStr fieldName) with _ | _
  · rfl
  · exfalso
    apply hns
    simp only [Bool.and_eq_true] at hb
    exact ⟨truthyStr_isSome hb.1.1, truthyStr_isSome hb.1.2, truthyStr_isSome hb.2⟩

/-- Witness for C1 at a concrete non-throwing call with no attach triple. -/
theorem c1_success_result_shape_witness :
    ((uploadImageUrl (U := Unit) (R := Unit) "u" none none none none (some "a") (some "t")
        { uploadResp := .ok (), fieldsResp := .notOk 0 "" "", patchResp := .notOk 0 "" "" }).1 =
      .ok { success := true, uploaded_file := () } ∨
      (uploadFile (U := Unit) (R := Unit) "p" none none none none (some "a") (some "t") true
        { uploadResp := .ok (), fieldsResp := .notOk 0 "" "", patchResp := .notOk 0 "" "" }).1 =
      .ok { success := true, uploaded_file := () }) ∧
    (({ success := true, uploaded_file := () } : OperationResult Unit Unit).success = true ∧
      ¬(({ success := true, uploaded_file := () } : OperationResult Unit Unit).updated_row.isSome = true ∧
        ({ success := true, uploaded_file := () } : OperationResult Unit Unit).row_update_error.isSome = true) ∧
      (({ success := true, uploaded_file := () } : OperationResult Unit Unit).updated_row.isSome = true →
        ∃ r, (Response.notOk (α := Unit) 0 "" "") = .ok r) ∧
      (({ success := true, uploaded_file := () } : OperationResult Unit Unit).row_update_error.isSome = true →
        jsTruthyNum (getFieldId ((none : Option String).getD "")
          (.str ((none : Option String).getD "")) (.notOk 0 "" "")).1 = false ∨
        ∃ s st b, (Response.notOk (α := Unit) 0 "" "") = .notOk s st b) ∧
      (¬((none : Option String).isSome = true ∧ (none : Option String).isSome = true ∧
          (none : Option String).isSome = true) →
        ({ success := true, uploaded_file := () } : OperationResult Unit Unit).updated_row = none ∧
        ({ success := true, uploaded_file := () } : OperationResult Unit Unit).row_update_error = none)) :=
  ⟨Or.inl rfl,
    c1_success_result_shape "u" "p" none none none none (some "a") (some "t") true
      { uploadResp := .ok (), fieldsResp := .notOk 0 "" "", patchResp := .notOk 0 "" "" }
      { success := true, uploaded_file := () } (Or.inl rfl)⟩

/-- The attach phase throws (rather than reporting on the result) exactly
when it was entered, the field reference resolved truthy, and the patch fetch
rejected or its body was malformed. -/
def attachThrows {U R : Type} (tableId rowId fieldName : Option String)
    (env : UploadEnv U R) : Prop :=
  (truthyStr tableId && truthyStr rowId && truthyStr fieldName) = true ∧
  jsTruthyNum (getFieldId (tableId.getD "") (.str (fieldName.getD "")) env.fieldsResp).1 = true ∧
  ((∃ m, env.patchResp = .reject m) ∨ ∃ m, env.patchResp = .okMalformed m)

theorem attachPhase_error_iff {U R : Type} (u : U) (t r f : Option String)
    (env : UploadEnv U R) :
    (∃ m, (attachPhase u t r f env).1 = .error m) ↔ attachThrows t r f env := by
  unfold attachThrows
  rcases hb : (truthyStr t && truthyStr r && truthyStr f) with _ | _
  · simp [attachPhase, hb]
  · rcases hres : jsTruthyNum (getFieldId (t.getD "") (.str (f.getD "")) env.fieldsResp).1
      with _ | _
    · simp [attachPhase, hb, hres]
    · cases hp : env.patchResp with
      | reject m => simp [attachPhase, hb, hres, hp]
      | okMalformed m => simp [attachPhase, hb, hres, hp]
      | notOk s st b => simp [attachPhase, hb, hres, hp]
      | ok v => simp [attachPhase, hb, hres, hp]

theorem uploadImageUrl_error_iff_after_upload {U R : Type} (url : String)
    (filename t r f apiUrl apiToken : Option String) (env : UploadEnv U R) (u : U)
    (hcreds : (truthyStr apiUrl && truthyStr apiToken) = true)
    (hup : env.uploadResp = .ok u) :
    (∃ m, (uploadImageUrl url filename t r f apiUrl apiToken env).1 = .error m) ↔
    (∃ m, (attachPhase u t r f env).1 = .error m) := by
  simp only [uploadImageUrl, hup]
  rw [if_neg (by simp [hcreds])]
  rcases ha : attachPhase u t r f env with ⟨e, log⟩
  cases e with
  | error m => simp [ha]
  | ok v => simp [ha]

theorem uploadFile_error_iff_after_upload {U R : Type} (filePath : String)
    (filename t r f apiUrl apiToken : Option String) (fileExists : Bool)
    (env : UploadEnv U R) (u : U)
    (hcreds : (truthyStr apiUrl && truthyStr apiToken) = true)
    (hfe : fileExists = true)
    (hup : env.uploadResp = .ok u) :
    (∃ m, (uploadFile filePath filename t r f apiUrl apiToken fileExists env).1 = .error m) ↔
    (∃ m, (attachPhase u t r f env).1 = .error m) := by
  simp only [uploadFile, hup]
  rw [if_neg (by simp [hcreds]), if_neg (by simp [hfe])]
  rcases ha : attachPhase u t r f env with ⟨e, log⟩
  cases e with
  | error m => simp [ha]
  | ok v => simp [ha]

/-- C2 counterexample: a call in which the upload-phase request succeeded
(`uploadResp = ok`) but the row-patch fetch rejects; `uploadImageUrl` throws
`Upload failed: boom` instead of reporting the failure as a field on a
success result. -/
theorem c2_counterexample :
    ({ uploadResp := .ok (), fieldsResp := .notOk 0 "" "", patchResp := .reject "boom"} :
        UploadEnv Unit Unit).uploadResp = .ok () ∧
    (uploadImageUrl (R := Unit) "u" none (some "1") (some "2") (some "3") (some "a") (some "t")
      { uploadResp := .ok (), fieldsResp := .notOk 0 "" "", patchResp := .reject "boom" }).1 =
    .error ("Upload failed: " ++ "boom") :=
  ⟨rfl, rfl⟩

/-- C2 (amended): once the upload-phase request has succeeded, field
resolution failures and non-success patch statuses are reported as
`row_update_error` on the returned success result, but the call still throws
exactly when the attach phase is entered, the field reference resolves
truthy, and the patch fetch rejects or its response body is malformed. -/
theorem c2_post_upload_throw_iff {U R : Type} (url filePath : String)
    (filename tableId rowId fieldName apiUrl apiToken : Option String)
    (fileExists : Bool) (env : UploadEnv U R) (u : U)
    (hcreds : (truthyStr apiUrl && truthyStr apiToken) = true)
    (hfe : fileExists = true)
    (hup : env.uploadResp = .ok u) :
    ((∃ m, (uploadImageUrl url filename tableId rowId fieldName apiUrl apiToken env).1 =
        .error m) ↔ attachThrows tableId rowId fieldName env) ∧
    ((∃ m, (uploadFile filePath filename tableId rowId fieldName apiUrl apiToken
        fileExists env).1 = .error m) ↔ attachThrows tableId rowId fieldName env) :=
  ⟨(uploadImageUrl_error_iff_after_upload url filename tableId rowId fieldName apiUrl apiToken
        env u hcreds hup).trans (attachPhase_error_iff u tableId rowId fieldName env),
    (uploadFile_error_iff_after_upload filePath filename tableId rowId fieldName apiUrl apiToken
        fileExists env u hcreds hfe hup).trans (attachPhase_error_iff u tableId rowId fieldName env)⟩

/-- Witness for the amended C2 at a concrete rejected patch. -/
theorem c2_post_upload_throw_iff_witness :
    ((truthyStr (some "a") && truthyStr (some "t")) = true ∧ true = true ∧
      ({ uploadResp := .ok (), fieldsResp := .notOk 0 "" "", patchResp := .reject "boom"} :
        UploadEnv Unit Unit).uploadResp = .ok ()) ∧
    ((∃ m, (uploadImageUrl (R := Unit) "u" none (some "1") (some "2") (some "3")
        (some "a") (some "t")
        { uploadResp := .ok (), fieldsResp := .notOk 0 "" "", patchResp := .reject "boom" }).1 =
        .error m) ↔
      attachThrows (some "1") (some "2") (some "3")
        ({ uploadResp := .ok (), fieldsResp := .notOk 0 "" "", patchResp := .reject "boom" } :
          UploadEnv Unit Unit)) :=
  ⟨⟨rfl, rfl, rfl⟩,
    (c2_post_upload_throw_iff "u" "p" none (some "1") (some "2") (some "3")
      (some "a") (some "t") true
      { uploadResp := .ok (), fieldsResp := .notOk 0 "" "", patchResp := .reject "boom" }
      () rfl rfl rfl).1⟩

/-- C6: a field reference that is a plain name (not numeric under JavaScript
coercion, not digit-only, and not a `field_` marker with a numeric tail)
absent from the fetched field list makes `getFieldId` return null after
consulting the list, and the orchestrator downgrades this to a
`row_update_error` naming the field and table while still returning
`success = true` with the uploaded-file descriptor. -/
theorem c6_name_resolution_failure {U R : Type} (url : String)
    (filename apiUrl apiToken : Option String) (tid rid fref : String)
    (env : UploadEnv U R) (u : U) (fields : List FieldRec)
    (hcreds : (truthyStr apiUrl && truthyStr apiToken) = true)
    (hup : env.uploadResp = .ok u)
    (htid : tid ≠ "") (hrid : rid ≠ "") (hfref : fref ≠ "")
    (hnan : jsIsNaN fref = true) (hnd : isDigitsOnly fref = false)
    (hmk : ("field_".data).isPrefixOf fref.data = true → jsIsNaN (stripFieldMarker fref) = true)
    (hfl : env.fieldsResp = .ok fields)
    (hmiss : ∀ fe ∈ fields, fe.name ≠ fref) :
    getFieldId tid (.str fref) env.fieldsResp = (none, true) ∧
    (uploadImageUrl url filename (some tid) (some rid) (some fref) apiUrl apiToken env).1 =
      .ok { success := true, uploaded_file := u,
            row_update_error := some (resolveErrMsg fref tid) } := by
  have hfind : fields.find? (fun fe => fe.name == fref) = none :=
    List.find?_eq_none.mpr (fun x hx => by simp [hmiss x hx])
  have hgfi : getFieldId tid (.str fref) env.fieldsResp = (none, true) := by
    cases hpre : ("field_".data).isPrefixOf fref.data with
    | false => simp [getFieldId, refIsNaN, refToString, hnan, hnd, hpre, nameLookup, hfl, hfind]
    | true =>
      simp [getFieldId, refIsNaN, refToString, hnan, hnd, hpre, hmk hpre, nameLookup, hfl, hfind]
  refine ⟨hgfi, ?_⟩
  have htr : (truthyStr (some tid) && truthyStr (some rid) && truthyStr (some fref)) = true := by
    simp [truthyStr, htid, hrid, hfref]
  have hat : (attachPhase u (some tid) (some rid) (some fref) env).1 =
      .ok { success := true, uploaded_file := u,
            row_update_error := some (resolveErrMsg fref tid) } := by
    simp [attachPhase, htr, hgfi, jsTruthyNum]
  simp only [uploadImageUrl, hup]
  rw [if_neg (by simp [hcreds])]
  rcases ha : attachPhase u (some tid) (some rid) (some fref) env with ⟨e, log⟩
  rw [ha] at hat
  simp only [Prod.fst] at hat
  subst hat
  simp

/-- Witness for C6: the name `Image` is absent from a field list holding only
`Photo`. -/
theorem c6_name_resolution_failure_witness :
    ((truthyStr (some "a") && truthyStr (some "t")) = true ∧
      ({ uploadResp := .ok (), fieldsResp := .ok [⟨7, "Photo"⟩], patchResp := .ok () } :
        UploadEnv Unit Unit).uploadResp = .ok () ∧
      ("1" : String) ≠ "" ∧ ("2" : String) ≠ "" ∧ ("Image" : String) ≠ "" ∧
      jsIsNaN "Image" = true ∧ isDigitsOnly "Image" = false ∧
      (("field_".data).isPrefixOf "Image".data = true →
        jsIsNaN (stripFieldMarker "Image") = true) ∧
      (∀ fe ∈ ([⟨7, "Photo"⟩] : List FieldRec), fe.name ≠ "Image")) ∧
    getFieldId "1" (.str "Image") (.ok [⟨7, "Photo"⟩]) = (none, true) ∧
    (uploadImageUrl (R := Unit) "u" none (some "1") (some "2") (some "Image")
        (some "a") (some "t")
        { uploadResp := .ok (), fieldsResp := .ok [⟨7, "Photo"⟩], patchResp := .ok () }).1 =
      .ok { success := true, uploaded_file := (),
            row_update_error := some (resolveErrMsg "Image" "1") } :=
  ⟨⟨rfl, rfl, by decide, by decide, by decide, by decide, by decide, by decide, by decide⟩,
    c6_name_resolution_failure "u" none (some "a") (some "t") "1" "2" "Image"
      { uploadResp := .ok (), fieldsResp := .ok [⟨7, "Photo"⟩], patchResp := .ok () }
      () [⟨7, "Photo"⟩] rfl rfl (by decide) (by decide) (by decide) (by decide) (by decide)
      (by decide) rfl (by decide)⟩

theorem attachPhase_patch_mem {U R : Type} (u : U) (t r f : Option String)
    (env : UploadEnv U R) (tt rr : String) (pp : List (String × List U))
    (hmem : Request.patchRow tt rr pp ∈ (attachPhase u t r f env).2) :
    ∃ n : Int, (getFieldId (t.getD "") (.str (f.getD "")) env.fieldsResp).1 = some (.int n) ∧
      pp = [("field_" ++ fieldIdStr (some (.int n)), [u])] ∧
      tt = t.getD "" ∧ rr = r.getD "" := by
  rcases hb : (truthyStr t && truthyStr r && truthyStr f) with _ | _
  · simp [attachPhase, hb] at hmem
  · rcases hres : jsTruthyNum (getFieldId (t.getD "") (.str (f.getD "")) env.fieldsResp).1
      with _ | _
    · rcases hf2 : (getFieldId (t.getD "") (.str (f.getD "")) env.fieldsResp).2 with _ | _ <;>
        simp [attachPhase, hb, hres, fetchLog, hf2] at hmem
    · obtain ⟨n, hn, -⟩ := (jsTruthyNum_true_iff _).mp hres
      rcases hf2 : (getFieldId (t.getD "") (.str (f.getD "")) env.fieldsResp).2 with _ | _ <;>
        cases hp : env.patchResp <;>
        · simp [attachPhase, hb, hres, fetchLog, hf2, hp] at hmem
          exact ⟨n, hn, by rw [← hn]; exact hmem.2.2, hmem.1, hmem.2.1⟩

/-- C9: every row-patch request either entry point issues carries exactly one
payload key, `field_<resolvedId>`, mapped to the one-element sequence holding
the uploaded-file descriptor — replacing, never appending to, the field's
file list — and no other key. -/
theorem c9_patch_payload_shape {U R : Type} (url filePath : String)
    (filename tableId rowId fieldName apiUrl apiToken : Option String)
    (fileExists : Bool) (env : UploadEnv U R) :
    (∀ tt rr pp, Request.patchRow tt rr pp ∈
        (uploadImageUrl url filename tableId rowId fieldName apiUrl apiToken env).2 →
      ∃ u n, env.uploadResp = .ok u ∧
        (getFieldId (tableId.getD "") (.str (fieldName.getD "")) env.fieldsResp).1 =
          some (.int n) ∧
        pp = [("field_" ++ fieldIdStr (some (.int n)), [u])]) ∧
    (∀ tt rr pp, Request.patchRow tt rr pp ∈
        (uploadFile filePath filename tableId rowId fieldName apiUrl apiToken
          fileExists env).2 →
      ∃ u n, env.uploadResp = .ok u ∧
        (getFieldId (tableId.getD "") (.str (fieldName.getD "")) env.fieldsResp).1 =
          some (.int n) ∧
        pp = [("field_" ++ fieldIdStr (some (.int n)), [u])]) := by
  constructor <;> intro tt rr pp hmem
  · cases henv : env.uploadResp with
    | reject m =>
      simp only [uploadImageUrl, henv] at hmem
      split at hmem <;> simp at hmem
    | okMalformed m =>
      simp only [uploadImageUrl, henv] at hmem
      split at hmem <;> simp at hmem
    | notOk s st b =>
      simp only [uploadImageUrl, henv] at hmem
      split at hmem <;> simp at hmem
    | ok u =>
      simp only [uploadImageUrl, henv] at hmem
      split at hmem
      · simp at hmem
      · rcases ha : attachPhase u tableId rowId fieldName env with ⟨e, log⟩
        rw [ha] at hmem
        have hmem2 : Request.patchRow tt rr pp ∈ log := by
          cases e <;> simpa using hmem
        obtain ⟨n, hn, hpp, -, -⟩ :=
          attachPhase_patch_mem u tableId rowId fieldName env tt rr pp (by rw [ha]; exact hmem2)
        exact ⟨u, n, rfl, hn, hpp⟩
  · cases henv : env.uploadResp with
    | reject m =>
      simp only [uploadFile, henv] at hmem
      split at hmem
      · simp at hmem
      · split at hmem <;> simp at hmem
    | okMalformed m =>
      simp only [uploadFile, henv] at hmem
      split at hmem
      · simp at hmem
      · split at hmem <;> simp at hmem
    | notOk s st b =>
      simp only [uploadFile, henv] at hmem
      split at hmem
      · simp at hmem
      · split at hmem <;> simp at hmem
    | ok u =>
      simp only [uploadFile, henv] at hmem
      split at hmem
      · simp at hmem
      · split at hmem
        · simp at hmem
        · rcases ha : attachPhase u tableId rowId fieldName env with ⟨e, log⟩
          rw [ha] at hmem
          have hmem2 : Request.patchRow tt rr pp ∈ log := by
            cases e <;> simpa using hmem
          obtain ⟨n, hn, hpp, -, -⟩ :=
            attachPhase_patch_mem u tableId rowId fieldName env tt rr pp (by rw [ha]; exact hmem2)
          exact ⟨u, n, rfl, hn, hpp⟩

/-- Witness for C9 at a concrete call whose log contains a patch request. -/
theorem c9_patch_payload_shape_witness :
    Request.patchRow "1" "2" [("field_3", [()])] ∈
      (uploadImageUrl (R := Unit) "u" none (some "1") (some "2") (some "3")
        (some "a") (some "t")
        { uploadResp := .ok (), fieldsResp := .notOk 0 "" "", patchResp := .ok () }).2 ∧
    (∃ u n, ({ uploadResp := .ok (), fieldsResp := .notOk 0 "" "", patchResp := .ok () } :
        UploadEnv Unit Unit).uploadResp = .ok u ∧
      (getFieldId ((some "1").getD "") (.str ((some "3").getD ""))
        (Response.notOk 0 "" "")).1 = some (.int n) ∧
      [("field_3", [()])] = [("field_" ++ fieldIdStr (some (.int n)), [u])]) :=
  ⟨by decide,
    (c9_patch_payload_shape (R := Unit) "u" "p" none (some "1") (some "2") (some "3")
      (some "a") (some "t") true
      { uploadResp := .ok (), fieldsResp := .notOk 0 "" "", patchResp := .ok () }).1
      "1" "2" [("field_3", [()])] (by decide)⟩

/-! ### The structure walker (`readBaserowStructure`) -/

/-- A workspace as read from the workspaces JSON. -/
structure WorkspaceData where
  id : Int
  name : String
deriving DecidableEq, Repr

/-- The workspaces response body: `results` may be absent. -/
structure WorkspacesPage where
  results : Option (List WorkspaceData)
deriving DecidableEq, Repr

/-- An application as read from the applications JSON. -/
structure AppData where
  id : Int
  name : String
  type : String
deriving DecidableEq, Repr

/-- A table as read from the tables JSON. -/
structure TableData where
  id : Int
  name : String
  order : Int
deriving DecidableEq, Repr

structure SelectOption where
  id : Int
  value : String
  color : String
deriving DecidableEq, Repr

/-- A field as read from the fields JSON; optional members model properties
the backend may omit. -/
structure FieldData where
  id : Int
  name : String
  type : String
  primary : Option Bool
  order : Int
  description : Option String
  file_types : Option (List String)
  multiple_files : Option Bool
  select_options : Option (List SelectOption)
  link_row_table : Option String
  link_row_table_id : Option Int
deriving DecidableEq, Repr

/-- The rows response body: `count` and `results` may be absent. -/
structure RowsPage (ρ : Type) where
  count : Option Nat
  results : Option (List ρ)
deriving DecidableEq

/-- JavaScript `x || null` for an optional string: absent and empty both
become null. -/
def jsStrOrNull : Option String → Option String
  | some s => if s = "" then none else some s
  | none => none

/-- JavaScript `x || null` for an optional integer: absent and `0` both
become null. -/
def jsIntOrNull : Option Int → Option Int
  | some n => if n = 0 then none else some n
  | none => none

/-- A field record of the output structure: the base properties plus the
type-conditional extensions spread in by the source (`outer` option = whether
the property is present, `inner` option = its possibly-null value). -/
structure FieldInfo where
  id : Int
  name : String
  type : String
  primary : Bool
  order : Int
  description : Option String
  fileTypes : Option (Option (List String)) := none
  multipleFiles : Option Bool := none
  selectOptions : Option (List SelectOption) := none
  linkRowTable : Option (Option String) := none
  linkRowTableId : Option (Option Int) := none
deriving DecidableEq, Repr

/-- The per-field mapping of the walker (`fieldsData.map(field => ...)`). -/
def mkFieldInfo (f : FieldData) : FieldInfo :=
  { id := f.id, name := f.name, type := f.type,
    primary := f.primary.getD false,
    order := f.order,
    description := jsStrOrNull f.description,
    fileTypes := if f.type = "file" then some f.file_types else none,
    multipleFiles := if f.type = "file" then some (f.multiple_files.getD false) else none,
    selectOptions :=
      if f.type = "single_select" ∨ f.type = "multiple_select" then
        some (f.select_options.getD [])
      else none,
    linkRowTable := if f.type = "link_row" then some (jsStrOrNull f.link_row_table) else none,
    linkRowTableId :=
      if f.type = "link_row" then some (jsIntOrNull f.link_row_table_id) else none }

structure TableInfo (ρ : Type) where
  id : Int
  name : String
  order : Int
  fields : List FieldInfo
  rowCount : Nat
  sampleRows : List ρ
deriving DecidableEq

structure AppInfo (ρ : Type) where
  id : Int
  name : String
  type : String
  tables : List (TableInfo ρ)
deriving DecidableEq

structure WorkspaceInfo (ρ : Type) where
  id : Int
  name : String
  applications : List (AppInfo ρ)
deriving DecidableEq

structure Summary where
  totalWorkspaces : Nat
  totalApplications : Nat
  totalTables : Nat
  totalFields : Nat
deriving DecidableEq, Repr

structure StructureData (ρ : Type) where
  workspaces : List (WorkspaceInfo ρ)
  summary : Summary
deriving DecidableEq

/-- The walker's return value (`structure` is a Lean keyword, so the source
field `structure` is named `struct` here). -/
structure WalkResult (ρ : Type) where
  success : Bool
  struct : StructureData ρ
  message : String
deriving DecidableEq

/-- Oracle for the fetches the walker can issue, keyed by the id in the URL;
the rows fetch also takes the `size` query parameter (`maxRows`). -/
structure WalkEnv (ρ : Type) where
  workspacesResp : Response WorkspacesPage
  appsResp : Int → Response (List AppData)
  tablesResp : Int → Response (List TableData)
  fieldsResp : Int → Response (List FieldData)
  rowsResp : Int → Int → Response (RowsPage ρ)

/-- Step 4 rows part: populate `rowCount`/`sampleRows` when requested; a
non-ok rows response leaves them `0`/`[]`; a rejected fetch or malformed body
throws. -/
def tableRowsStep {ρ : Type} (env : WalkEnv ρ) (includeRows : Bool) (maxRows : Int)
    (t : TableData) (fields : List FieldInfo) (fcount : Nat) :
    Except String (TableInfo ρ × Nat) :=
  if includeRows then
    match env.rowsResp t.id maxRows with
    | .reject m => .error m
    | .okMalformed m => .error m
    | .notOk _ _ _ =>
      .ok ({ id := t.id, name := t.name, order := t.order, fields := fields,
             rowCount := 0, sampleRows := [] }, fcount)
    | .ok page =>
      .ok ({ id := t.id, name := t.name, order := t.order, fields := fields,
             rowCount := page.count.getD 0, sampleRows := page.results.getD [] }, fcount)
  else
    .ok ({ id := t.id, name := t.name, order := t.order, fields := fields,
           rowCount := 0, sampleRows := [] }, fcount)

/-- Step 4: one table — fetch its fields (a non-ok response silently leaves
`fields = []` and adds nothing to `totalFields`), then optionally its rows.
Returns the table record and its `totalFields` contribution. -/
def processTable {ρ : Type} (env : WalkEnv ρ) (includeRows : Bool) (maxRows : Int)
    (t : TableData) : Except String (TableInfo ρ × Nat) :=
  match env.fieldsResp t.id with
  | .reject m => .error m
  | .okMalformed m => .error m
  | .notOk _ _ _ => tableRowsStep env includeRows maxRows t [] 0
  | .ok fieldsData =>
    tableRowsStep env includeRows maxRows t (fieldsData.map mkFieldInfo) fieldsData.length

/-- The tables loop of step 4, accumulating `totalFields`. -/
def processTables {ρ : Type} (env : WalkEnv ρ) (includeRows : Bool) (maxRows : Int) :
    List TableData → Except String (List (TableInfo ρ) × Nat)
  | [] => .ok ([], 0)
  | t :: ts => do
    let (ti, fc) ← processTable env includeRows maxRows t
    let (tis, fcs) ← processTables env includeRows maxRows ts
    .ok (ti :: tis, fc + fcs)

/-- Step 3: one application — skipped (`none`) unless its type is
`database`; a non-ok tables response logs a warning and keeps the
application with `tables = []`.  Returns the record and the
(`totalTables`, `totalFields`) contributions. -/
def processApp {ρ : Type} (env : WalkEnv ρ) (includeRows : Bool) (maxRows : Int)
    (a : AppData) : Except String (Option (AppInfo ρ) × Nat × Nat) :=
  if a.type ≠ "database" then .ok (none, 0, 0)
  else
    match env.tablesResp a.id with
    | .reject m => .error m
    | .okMalformed m => .error m
    | .notOk _ _ _ =>
      .ok (some { id := a.id, name := a.name, type := a.type, tables := [] }, 0, 0)
    | .ok tablesData => do
      let (tis, fc) ← processTables env includeRows maxRows tablesData
      .ok (some { id := a.id, name := a.name, type := a.type, tables := tis },
        tablesData.length, fc)

/-- The applications loop of step 3. -/
def processApps {ρ : Type} (env : WalkEnv ρ) (includeRows : Bool) (maxRows : Int) :
    List AppData → Except String (List (AppInfo ρ) × Nat × Nat)
  | [] => .ok ([], 0, 0)
  | a :: as_ => do
    let (ai?, tc, fc) ← processApp env includeRows maxRows a
    let (ais, tcs, fcs) ← processApps env includeRows maxRows as_
    .ok ((ai?.toList ++ ais), tc + tcs, fc + fcs)

/-- Step 2: one workspace — a non-ok applications response logs a warning and
keeps the workspace with `applications = []` (contributing nothing to the
summary); otherwise `totalApplications` grows by the raw fetched count before
the `database` filter.  Returns the record and the (`totalApplications`,
`totalTables`, `totalFields`) contributions. -/
def processWorkspace {ρ : Type} (env : WalkEnv ρ) (includeRows : Bool) (maxRows : Int)
    (w : WorkspaceData) : Except String (WorkspaceInfo ρ × Nat × Nat × Nat) :=
  match env.appsResp w.id with
  | .reject m => .error m
  | .okMalformed m => .error m
  | .notOk _ _ _ => .ok ({ id := w.id, name := w.name, applications := [] }, 0, 0, 0)
  | .ok appsData => do
    let (ais, tc, fc) ← processApps env includeRows maxRows appsData
    .ok ({ id := w.id, name := w.name, applications := ais }, appsData.length, tc, fc)

/-- The workspaces loop of step 2. -/
def processWorkspaces {ρ : Type} (env : WalkEnv ρ) (includeRows : Bool) (maxRows : Int) :
    List WorkspaceData → Except String (List (WorkspaceInfo ρ) × Nat × Nat × Nat)
  | [] => .ok ([], 0, 0, 0)
  | w :: ws => do
    let (wi, ac, tc, fc) ← processWorkspace env includeRows maxRows w
    let (wis, acs, tcs, fcs) ← processWorkspaces env includeRows maxRows ws
    .ok (wi :: wis, ac + acs, tc + tcs, fc + fcs)

/-- The summary message of a completed walk. -/
def mkWalkMessage (tw ta tt tf : Nat) : String :=
  s!"Found {tw} workspaces, {ta} applications, {tt} tables, and {tf} fields"

/-- `readBaserowStructure(includeRows, maxRows)`: check the credential
context, fetch the workspaces (a non-ok status throws
`Failed to fetch workspaces: ...`), walk the hierarchy, and wrap any throw
inside the `try` as `Failed to read Baserow structure: <msg>`. -/
def readBaserowStructure {ρ : Type} (includeRows : Bool) (maxRows : Int)
    (apiUrl apiToken : Option String) (env : WalkEnv ρ) :
    Except String (WalkResult ρ) :=
  if !(truthyStr apiUrl && truthyStr apiToken) then
    .error "BASEROW_API_URL and BASEROW_API_TOKEN environment variables are required"
  else
    match env.workspacesResp with
    | .reject m => .error ("Failed to read Baserow structure: " ++ m)
    | .okMalformed m => .error ("Failed to read Baserow structure: " ++ m)
    | .notOk status statusText _ =>
      .error ("Failed to read Baserow structure: " ++
        s!"Failed to fetch workspaces: {status} {statusText}")
    | .ok page =>
      match processWorkspaces env includeRows maxRows (page.results.getD []) with
      | .error m => .error ("Failed to read Baserow structure: " ++ m)
      | .ok (wis, ac, tc, fc) =>
        .ok { success := true,
              struct := { workspaces := wis,
                          summary := { totalWorkspaces := (page.results.getD []).length,
                                       totalApplications := ac,
                                       totalTables := tc,
                                       totalFields := fc } },
              message := mkWalkMessage (page.results.getD []).length ac tc fc }

/-! ### Facts about the walker -/

@[simp]
theorem except_bind_ok {ε α β : Type} (a : α) (f : α → Except ε β) :
    (Except.ok a : Except ε α) >>= f = f a := rfl

@[simp]
theorem except_bind_error {ε α β : Type} (e : ε) (f : α → Except ε β) :
    (Except.error e : Except ε α) >>= f = (Except.error e : Except ε β) := rfl

/-- A response that does not make the enclosing `try` throw at the fetch or
JSON-parse step: ok or non-ok status (transport rejections and malformed
bodies throw). -/
def respSettled {α : Type} : Response α → Bool
  | .reject _ => false
  | .okMalformed _ => false
  | _ => true

/-- All non-root fetches of a walk are settled (no transport rejections, no
malformed bodies). -/
def envSettled {ρ : Type} (env : WalkEnv ρ) : Prop :=
  (∀ i, respSettled (env.appsResp i) = true) ∧
  (∀ i, respSettled (env.tablesResp i) = true) ∧
  (∀ i, respSettled (env.fieldsResp i) = true) ∧
  (∀ i j, respSettled (env.rowsResp i j) = true)

theorem tableRowsStep_total {ρ : Type} (env : WalkEnv ρ) (inc : Bool) (mr : Int)
    (t : TableData) (fields : List FieldInfo) (fcount : Nat)
    (hs : respSettled (env.rowsResp t.id mr) = true) :
    ∃ v, tableRowsStep env inc mr t fields fcount = .ok v := by
  unfold tableRowsStep
  split
  · cases hr : env.rowsResp t.id mr with
    | reject m => rw [hr] at hs; exact absurd hs (by simp [respSettled])
    | okMalformed m => rw [hr] at hs; exact absurd hs (by simp [respSettled])
    | notOk s st b => exact ⟨_, rfl⟩
    | ok page => exact ⟨_, rfl⟩
  · exact ⟨_, rfl⟩

theorem processTable_total {ρ : Type} (env : WalkEnv ρ) (inc : Bool) (mr : Int)
    (t : TableData) (hf : respSettled (env.fieldsResp t.id) = true)
    (hr : respSettled (env.rowsResp t.id mr) = true) :
    ∃ v, processTable env inc mr t = .ok v := by
  unfold processTable
  cases hfr : env.fieldsResp t.id with
  | reject m => rw [hfr] at hf; exact absurd hf (by simp [respSettled])
  | okMalformed m => rw [hfr] at hf; exact absurd hf (by simp [respSettled])
  | notOk s st b => exact tableRowsStep_total env inc mr t [] 0 hr
  | ok fd => exact tableRowsStep_total env inc mr t (fd.map mkFieldInfo) fd.length hr

theorem processTables_total {ρ : Type} (env : WalkEnv ρ) (inc : Bool) (mr : Int)
    (hset : envSettled env) (l : List TableData) :
    ∃ v, processTables env inc mr l = .ok v := by
  induction l with
  | nil => exact ⟨([], 0), rfl⟩
  | cons t ts ih =>
    obtain ⟨⟨ti, fc⟩, hti⟩ :=
      processTable_total env inc mr t (hset.2.2.1 t.id) (hset.2.2.2 t.id mr)
    obtain ⟨⟨tis, fcs⟩, htis⟩ := ih
    refine ⟨(ti :: tis, fc + fcs), ?_⟩
    rw [processTables, hti, htis]
    rfl

theorem processApp_total {ρ : Type} (env : WalkEnv ρ) (inc : Bool) (mr : Int)
    (hset : envSettled env) (a : AppData) :
    ∃ v, processApp env inc mr a = .ok v := by
  unfold processApp
  split
  · exact ⟨_, rfl⟩
  · cases ht : env.tablesResp a.id with
    | reject m =>
      have := hset.2.1 a.id
      rw [ht] at this
      exact absurd this (by simp [respSettled])
    | okMalformed m =>
      have := hset.2.1 a.id
      rw [ht] at this
      exact absurd this (by simp [respSettled])
    | notOk s st b => exact ⟨_, rfl⟩
    | ok td =>
      obtain ⟨⟨tis, fc⟩, h⟩ := processTables_total env inc mr hset td
      refine ⟨(some ⟨a.id, a.name, a.type, tis⟩, td.length, fc), ?_⟩
      simp [h] <;> rfl

theorem processApps_total {ρ : Type} (env : WalkEnv ρ) (inc : Bool) (mr : Int)
    (hset : envSettled env) (l : List AppData) :
    ∃ v, processApps env inc mr l = .ok v := by
  induction l with
  | nil => exact ⟨([], 0, 0), rfl⟩
  | cons a as ih =>
    obtain ⟨⟨ai?, tc, fc⟩, hai⟩ := processApp_total env inc mr hset a
    obtain ⟨⟨ais, tcs, fcs⟩, his⟩ := ih
    refine ⟨(ai?.toList ++ ais, tc + tcs, fc + fcs), ?_⟩
    rw [processApps, hai, his]
    rfl

theorem processWorkspace_total {ρ : Type} (env : WalkEnv ρ) (inc : Bool) (mr : Int)
    (hset : envSettled env) (w : WorkspaceData) :
    ∃ v, processWorkspace env inc mr w = .ok v := by
  unfold processWorkspace
  cases ha : env.appsResp w.id with
  | reject m =>
    have := hset.1 w.id
    rw [ha] at this
    exact absurd this (by simp [respSettled])
  | okMalformed m =>
    have := hset.1 w.id
    rw [ha] at this
    exact absurd this (by simp [respSettled])
  | notOk s st b => exact ⟨_, rfl⟩
  | ok appsData =>
    obtain ⟨⟨ais, tc, fc⟩, h⟩ := processApps_total env inc mr hset appsData
    refine ⟨(⟨w.id, w.name, ais⟩, appsData.length, tc, fc), ?_⟩
    simp [h] <;> rfl

theorem processWorkspaces_forall₂ {ρ : Type} (env : WalkEnv ρ) (inc : Bool) (mr : Int)
    (hset : envSettled env) (l : List WorkspaceData) :
    ∃ wis ac tc fc, processWorkspaces env inc mr l = .ok (wis, ac, tc, fc) ∧
      List.Forall₂ (fun w wi => ∃ a t f, processWorkspace env inc mr w = .ok (wi, a, t, f))
        l wis := by
  induction l with
  | nil => exact ⟨[], 0, 0, 0, rfl, List.Forall₂.nil⟩
  | cons w ws ih =>
    obtain ⟨⟨wi, ac, tc, fc⟩, hw⟩ := processWorkspace_total env inc mr hset w
    obtain ⟨wis, acs, tcs, fcs, hws, hrel⟩ := ih
    refine ⟨wi :: wis, ac + acs, tc + tcs, fc + fcs, ?_,
      List.Forall₂.cons ⟨ac, tc, fc, hw⟩ hrel⟩
    rw [processWorkspaces, hw, hws]
    rfl

theorem processWorkspaces_error_of_mem {ρ : Type} (env : WalkEnv ρ) (inc : Bool) (mr : Int)
    (l : List WorkspaceData) (w : WorkspaceData) (hmem : w ∈ l) (m : String)
    (hw : processWorkspace env inc mr w = .error m) :
    ∃ m', processWorkspaces env inc mr l = .error m' := by
  induction l with
  | nil => cases hmem
  | cons x xs ih =>
    rcases hpx : processWorkspace env inc mr x with m0 | v
    · exact ⟨m0, by rw [processWorkspaces, hpx]; rfl⟩
    · rcases v with ⟨wi, ac, tc, fc⟩
      rcases List.mem_cons.mp hmem with rfl | hmem2
      · rw [hpx] at hw
        simp at hw
      · obtain ⟨m', h'⟩ := ih hmem2
        exact ⟨m', by rw [processWorkspaces, hpx, h']; rfl⟩

/-- C4: a failing root workspaces fetch — non-success status or transport
rejection — fails the whole `readBaserowStructure` call with the
structure-read wrapper around the underlying cause, and no partial structure
is returned. -/
theorem c4_root_workspaces_failure_fatal {ρ : Type} (inc : Bool) (mr : Int)
    (apiUrl apiToken : Option String) (env : WalkEnv ρ)
    (hcreds : (truthyStr apiUrl && truthyStr apiToken) = true) :
    (∀ s st b, env.workspacesResp = .notOk s st b →
      readBaserowStructure inc mr apiUrl apiToken env =
        .error ("Failed to read Baserow structure: " ++
          s!"Failed to fetch workspaces: {s} {st}")) ∧
    (∀ m, env.workspacesResp = .reject m →
      readBaserowStructure inc mr apiUrl apiToken env =
        .error ("Failed to read Baserow structure: " ++ m)) := by
  constructor
  · intro s st b h
    simp only [readBaserowStructure, h]
    rw [if_neg (by simp [hcreds])]
  · intro m h
    simp only [readBaserowStructure, h]
    rw [if_neg (by simp [hcreds])]

/-- Environment with a failing root workspaces fetch. -/
def wEnvRootFail : WalkEnv Unit :=
  { workspacesResp := .notOk 500 "Server Error" "",
    appsResp := fun _ => .ok [],
    tablesResp := fun _ => .ok [],
    fieldsResp := fun _ => .ok [],
    rowsResp := fun _ _ => .ok ⟨none, none⟩ }

/-- Witness for C4 at a concrete failing root fetch. -/
theorem c4_root_workspaces_failure_fatal_witness :
    (truthyStr (some "a") && truthyStr (some "t")) = true ∧
    wEnvRootFail.workspacesResp = .notOk 500 "Server Error" "" ∧
    readBaserowStructure false 5 (some "a") (some "t") wEnvRootFail =
      .error ("Failed to read Baserow structure: " ++
        "Failed to fetch workspaces: 500 Server Error") :=
  ⟨rfl, rfl,
    (c4_root_workspaces_failure_fatal false 5 (some "a") (some "t") wEnvRootFail rfl).1
      500 "Server Error" "" rfl⟩

/-- Environment whose (non-root) applications fetch rejects at the transport
level. -/
def wEnvAppsReject : WalkEnv Unit :=
  { workspacesResp := .ok ⟨some [⟨1, "W"⟩]⟩,
    appsResp := fun _ => .reject "boom",
    tablesResp := fun _ => .ok [],
    fieldsResp := fun _ => .ok [],
    rowsResp := fun _ _ => .ok ⟨none, none⟩ }

/-- C5 counterexample: a transport-level rejection of the applications fetch
(a non-root level) is not absorbed — the whole walk fails with the
structure-read wrapper instead of continuing with an empty sequence. -/
theorem c5_counterexample :
    wEnvAppsReject.workspacesResp = .ok ⟨some [⟨1, "W"⟩]⟩ ∧
    wEnvAppsReject.appsResp 1 = .reject "boom" ∧
    readBaserowStructure false 5 (some "a") (some "t") wEnvAppsReject =
      .error ("Failed to read Baserow structure: " ++ "boom") :=
  ⟨rfl, rfl, rfl⟩

theorem processTables_error_of_mem {ρ : Type} (env : WalkEnv ρ) (inc : Bool) (mr : Int)
    (l : List TableData) (t : TableData) (hmem : t ∈ l) (m : String)
    (ht : processTable env inc mr t = .error m) :
    ∃ m', processTables env inc mr l = .error m' := by
  induction l with
  | nil => cases hmem
  | cons x xs ih =>
    rcases hpx : processTable env inc mr x with m0 | v
    · exact ⟨m0, by rw [processTables, hpx]; rfl⟩
    · rcases v with ⟨ti, fc⟩
      rcases List.mem_cons.mp hmem with rfl | hmem2
      · rw [hpx] at ht
        simp at ht
      · obtain ⟨m', h'⟩ := ih hmem2
        exact ⟨m', by rw [processTables, hpx, h']; rfl⟩

theorem processApps_error_of_mem {ρ : Type} (env : WalkEnv ρ) (inc : Bool) (mr : Int)
    (l : List AppData) (a : AppData) (hmem : a ∈ l) (m : String)
    (ha : processApp env inc mr a = .error m) :
    ∃ m', processApps env inc mr l = .error m' := by
  induction l with
  | nil => cases hmem
  | cons x xs ih =>
    rcases hpx : processApp env inc mr x with m0 | v
    · exact ⟨m0, by rw [processApps, hpx]; rfl⟩
    · rcases v with ⟨ai?, tc, fc⟩
      rcases List.mem_cons.mp hmem with rfl | hmem2
      · rw [hpx] at ha
        simp at ha
      · obtain ⟨m', h'⟩ := ih hmem2
        exact ⟨m', by rw [processApps, hpx, h']; rfl⟩

theorem processWorkspace_error_of_apps {ρ : Type} (env : WalkEnv ρ) (inc : Bool) (mr : Int)
    (w : WorkspaceData) (apps : List AppData) (hok : env.appsResp w.id = .ok apps)
    (m : String) (h : processApps env inc mr apps = .error m) :
    processWorkspace env inc mr w = .error m := by
  simp [processWorkspace, hok, h]

theorem processApp_error_of_tables {ρ : Type} (env : WalkEnv ρ) (inc : Bool) (mr : Int)
    (a : AppData) (tables : List TableData) (hty : a.type = "database")
    (hok : env.tablesResp a.id = .ok tables)
    (m : String) (h : processTables env inc mr tables = .error m) :
    processApp env inc mr a = .error m := by
  simp [processApp, hty, hok, h]

theorem readBaserowStructure_error_of_walk {ρ : Type} (inc : Bool) (mr : Int)
    (apiUrl apiToken : Option String) (env : WalkEnv ρ) (page : WorkspacesPage)
    (hcreds : (truthyStr apiUrl && truthyStr apiToken) = true)
    (hws : env.workspacesResp = .ok page) (m : String)
    (h : processWorkspaces env inc mr (page.results.getD []) = .error m) :
    readBaserowStructure inc mr apiUrl apiToken env =
      .error ("Failed to read Baserow structure: " ++ m) := by
  simp only [readBaserowStructure, hws]
  rw [if_neg (by simp [hcreds]), h]

/-- C5 (amended): a transport-level failure (fetch rejection) at any non-root
level — the applications, tables, fields, or rows fetch — is not absorbed:
the loops have no inner try/catch, so a rejection anywhere in the traversal
aborts the whole call with the `Failed to read Baserow structure:` wrapper
and no partial structure is returned; only non-success statuses are absorbed
at non-root levels. -/
theorem c5_nonroot_reject_fatal {ρ : Type} (inc : Bool) (mr : Int)
    (apiUrl apiToken : Option String) (env : WalkEnv ρ) (page : WorkspacesPage)
    (hcreds : (truthyStr apiUrl && truthyStr apiToken) = true)
    (hws : env.workspacesResp = .ok page) :
    (∀ w ∈ page.results.getD [], ∀ m, env.appsResp w.id = .reject m →
      ∃ m', readBaserowStructure inc mr apiUrl apiToken env =
        .error ("Failed to read Baserow structure: " ++ m')) ∧
    (∀ w ∈ page.results.getD [], ∀ apps, env.appsResp w.id = .ok apps →
      ∀ a ∈ apps, a.type = "database" → ∀ m, env.tablesResp a.id = .reject m →
      ∃ m', readBaserowStructure inc mr apiUrl apiToken env =
        .error ("Failed to read Baserow structure: " ++ m')) ∧
    (∀ w ∈ page.results.getD [], ∀ apps, env.appsResp w.id = .ok apps →
      ∀ a ∈ apps, a.type = "database" → ∀ tables, env.tablesResp a.id = .ok tables →
      ∀ t ∈ tables, ∀ m, env.fieldsResp t.id = .reject m →
      ∃ m', readBaserowStructure inc mr apiUrl apiToken env =
        .error ("Failed to read Baserow structure: " ++ m')) ∧
    (inc = true →
      ∀ w ∈ page.results.getD [], ∀ apps, env.appsResp w.id = .ok apps →
      ∀ a ∈ apps, a.type = "database" → ∀ tables, env.tablesResp a.id = .ok tables →
      ∀ t ∈ tables, ∀ m, env.rowsResp t.id mr = .reject m →
      ∃ m', readBaserowStructure inc mr apiUrl apiToken env =
        .error ("Failed to read Baserow structure: " ++ m')) := by
  refine ⟨?_, ?_, ?_, ?_⟩
  · intro w hmem m hrej
    have hw : processWorkspace env inc mr w = .error m := by
      simp [processWorkspace, hrej]
    obtain ⟨m', h'⟩ :=
      processWorkspaces_error_of_mem env inc mr (page.results.getD []) w hmem m hw
    exact ⟨m', readBaserowStructure_error_of_walk inc mr apiUrl apiToken env page
      hcreds hws m' h'⟩
  · intro w hmem apps hok a hamem hty m hrej
    have ha : processApp env inc mr a = .error m := by
      simp [processApp, hty, hrej]
    obtain ⟨m1, h1⟩ := processApps_error_of_mem env inc mr apps a hamem m ha
    have hw : processWorkspace env inc mr w = .error m1 :=
      processWorkspace_error_of_apps env inc mr w apps hok m1 h1
    obtain ⟨m', h'⟩ :=
      processWorkspaces_error_of_mem env inc mr (page.results.getD []) w hmem m1 hw
    exact ⟨m', readBaserowStructure_error_of_walk inc mr apiUrl apiToken env page
      hcreds hws m' h'⟩
  · intro w hmem apps hok a hamem hty tables htok t htmem m hrej
    have ht : processTable env inc mr t = .error m := by
      simp [processTable, hrej]
    obtain ⟨m0, h0⟩ := processTables_error_of_mem env inc mr tables t htmem m ht
    have ha : processApp env inc mr a = .error m0 :=
      processApp_error_of_tables env inc mr a tables hty htok m0 h0
    obtain ⟨m1, h1⟩ := processApps_error_of_mem env inc mr apps a hamem m0 ha
    have hw : processWorkspace env inc mr w = .error m1 :=
      processWorkspace_error_of_apps env inc mr w apps hok m1 h1
    obtain ⟨m', h'⟩ :=
      processWorkspaces_error_of_mem env inc mr (page.results.getD []) w hmem m1 hw
    exact ⟨m', readBaserowStructure_error_of_walk inc mr apiUrl apiToken env page
      hcreds hws m' h'⟩
  · intro hinc w hmem apps hok a hamem hty tables htok t htmem m hrej
    have ht : ∃ m0, processTable env inc mr t = .error m0 := by
      cases hf : env.fieldsResp t.id with
      | reject m0 => exact ⟨m0, by simp [processTable, hf]⟩
      | okMalformed m0 => exact ⟨m0, by simp [processTable, hf]⟩
      | notOk s st b => exact ⟨m, by simp [processTable, hf, tableRowsStep, hinc, hrej]⟩
      | ok fd => exact ⟨m, by simp [processTable, hf, tableRowsStep, hinc, hrej]⟩
    obtain ⟨m0, ht⟩ := ht
    obtain ⟨m1, h1⟩ := processTables_error_of_mem env inc mr tables t htmem m0 ht
    have ha : processApp env inc mr a = .error m1 :=
      processApp_error_of_tables env inc mr a tables hty htok m1 h1
    obtain ⟨m2, h2⟩ := processApps_error_of_mem env inc mr apps a hamem m1 ha
    have hw : processWorkspace env inc mr w = .error m2 :=
      processWorkspace_error_of_apps env inc mr w apps hok m2 h2
    obtain ⟨m', h'⟩ :=
      processWorkspaces_error_of_mem env inc mr (page.results.getD []) w hmem m2 hw
    exact ⟨m', readBaserowStructure_error_of_walk inc mr apiUrl apiToken env page
      hcreds hws m' h'⟩

/-- Environment with a rejecting fetch at each non-root level: workspace 1's
applications fetch rejects; application 10's tables fetch rejects; table
100's fields fetch rejects; table 101's rows fetch rejects. -/
def wEnvMultiReject : WalkEnv Unit :=
  { workspacesResp := .ok ⟨some [⟨1, "W1"⟩, ⟨2, "W2"⟩]⟩,
    appsResp := fun i => if i = 1 then .reject "boomA"
      else .ok [⟨10, "A1", "database"⟩, ⟨11, "A2", "database"⟩],
    tablesResp := fun i => if i = 10 then .reject "boomT"
      else .ok [⟨100, "T1", 1⟩, ⟨101, "T2", 2⟩],
    fieldsResp := fun i => if i = 100 then .reject "boomF" else .ok [],
    rowsResp := fun i _ => if i = 101 then .reject "boomR" else .ok ⟨none, none⟩ }

/-- Witness for the amended C5: one rejecting fetch at each of the four
non-root levels, each making the whole call fail with the wrapper. -/
theorem c5_nonroot_reject_fatal_witness :
    ((truthyStr (some "a") && truthyStr (some "t")) = true ∧
      wEnvMultiReject.workspacesResp = .ok ⟨some [⟨1, "W1"⟩, ⟨2, "W2"⟩]⟩) ∧
    (wEnvMultiReject.appsResp 1 = .reject "boomA" ∧
      ∃ m', readBaserowStructure true 5 (some "a") (some "t") wEnvMultiReject =
        .error ("Failed to read Baserow structure: " ++ m')) ∧
    (wEnvMultiReject.tablesResp 10 = .reject "boomT" ∧
      ∃ m', readBaserowStructure true 5 (some "a") (some "t") wEnvMultiReject =
        .error ("Failed to read Baserow structure: " ++ m')) ∧
    (wEnvMultiReject.fieldsResp 100 = .reject "boomF" ∧
      ∃ m', readBaserowStructure true 5 (some "a") (some "t") wEnvMultiReject =
        .error ("Failed to read Baserow structure: " ++ m')) ∧
    (wEnvMultiReject.rowsResp 101 5 = .reject "boomR" ∧
      ∃ m', readBaserowStructure true 5 (some "a") (some "t") wEnvMultiReject =
        .error ("Failed to read Baserow structure: " ++ m')) :=
  ⟨⟨rfl, rfl⟩,
    ⟨rfl, (c5_nonroot_reject_fatal true 5 (some "a") (some "t") wEnvMultiReject
      ⟨some [⟨1, "W1"⟩, ⟨2, "W2"⟩]⟩ rfl rfl).1
      ⟨1, "W1"⟩ (by decide) "boomA" rfl⟩,
    ⟨rfl, (c5_nonroot_reject_fatal true 5 (some "a") (some "t") wEnvMultiReject
      ⟨some [⟨1, "W1"⟩, ⟨2, "W2"⟩]⟩ rfl rfl).2.1
      ⟨2, "W2"⟩ (by decide) [⟨10, "A1", "database"⟩, ⟨11, "A2", "database"⟩] rfl
      ⟨10, "A1", "database"⟩ (by decide) rfl "boomT" rfl⟩,
    ⟨rfl, (c5_nonroot_reject_fatal true 5 (some "a") (some "t") wEnvMultiReject
      ⟨some [⟨1, "W1"⟩, ⟨2, "W2"⟩]⟩ rfl rfl).2.2.1
      ⟨2, "W2"⟩ (by decide) [⟨10, "A1", "database"⟩, ⟨11, "A2", "database"⟩] rfl
      ⟨11, "A2", "database"⟩ (by decide) rfl [⟨100, "T1", 1⟩, ⟨101, "T2", 2⟩] rfl
      ⟨100, "T1", 1⟩ (by decide) "boomF" rfl⟩,
    ⟨rfl, (c5_nonroot_reject_fatal true 5 (some "a") (some "t") wEnvMultiReject
      ⟨some [⟨1, "W1"⟩, ⟨2, "W2"⟩]⟩ rfl rfl).2.2.2 rfl
      ⟨2, "W2"⟩ (by decide) [⟨10, "A1", "database"⟩, ⟨11, "A2", "database"⟩] rfl
      ⟨11, "A2", "database"⟩ (by decide) rfl [⟨100, "T1", 1⟩, ⟨101, "T2", 2⟩] rfl
      ⟨101, "T2", 2⟩ (by decide) "boomR" rfl⟩⟩

/-- C3: non-success (non-ok status) responses below the root degrade to empty
sequences on the preserved parent entity instead of aborting: a workspace
with a failed applications fetch is kept with `applications = []`, a database
application with a failed tables fetch is kept with `tables = []`, a table
with a failed fields fetch is kept with `fields = []`; and whenever the root
fetch is ok and no fetch rejects, the traversal completes with a partial
structure whose workspaces are exactly the independent per-workspace
results. -/
theorem c3_nonroot_notok_degrades {ρ : Type} (env : WalkEnv ρ) (inc : Bool) (mr : Int)
    (apiUrl apiToken : Option String)
    (hcreds : (truthyStr apiUrl && truthyStr apiToken) = true) :
    (∀ (w : WorkspaceData) s st b, env.appsResp w.id = .notOk s st b →
      processWorkspace env inc mr w =
        .ok ({ id := w.id, name := w.name, applications := [] }, 0, 0, 0)) ∧
    (∀ (a : AppData) s st b, a.type = "database" → env.tablesResp a.id = .notOk s st b →
      processApp env inc mr a =
        .ok (some { id := a.id, name := a.name, type := a.type, tables := [] }, 0, 0)) ∧
    (∀ (t : TableData) s st b, env.fieldsResp t.id = .notOk s st b →
      respSettled (env.rowsResp t.id mr) = true →
      ∃ rc sr, processTable env inc mr t =
        .ok ({ id := t.id, name := t.name, order := t.order, fields := [],
               rowCount := rc, sampleRows := sr }, 0)) ∧
    (∀ page, env.workspacesResp = .ok page → envSettled env →
      ∃ res, readBaserowStructure inc mr apiUrl apiToken env = .ok res ∧
        List.Forall₂
          (fun w wi => ∃ a t f, processWorkspace env inc mr w = .ok (wi, a, t, f))
          (page.results.getD []) res.struct.workspaces) := by
  refine ⟨?_, ?_, ?_, ?_⟩
  · intro w s st b h
    simp [processWorkspace, h]
  · intro a s st b hty ht
    simp [processApp, hty, ht]
  · intro t s st b hf hrows
    simp only [processTable, hf]
    unfold tableRowsStep
    split
    · cases hr : env.rowsResp t.id mr with
      | reject m => rw [hr] at hrows; exact absurd hrows (by simp [respSettled])
      | okMalformed m => rw [hr] at hrows; exact absurd hrows (by simp [respSettled])
      | notOk s' st' b' => exact ⟨0, [], rfl⟩
      | ok page => exact ⟨page.count.getD 0, page.results.getD [], rfl⟩
    · exact ⟨0, [], rfl⟩
  · intro page hws hset
    obtain ⟨wis, ac, tc, fc, hpw, hrel⟩ :=
      processWorkspaces_forall₂ env inc mr hset (page.results.getD [])
    refine ⟨{ success := true,
              struct := { workspaces := wis,
                          summary := { totalWorkspaces := (page.results.getD []).length,
                                       totalApplications := ac,
                                       totalTables := tc,
                                       totalFields := fc } },
              message := mkWalkMessage (page.results.getD []).length ac tc fc }, ?_, hrel⟩
    simp only [readBaserowStructure, hws]
    rw [if_neg (by simp [hcreds]), hpw]

/-- Environment for the C3 witness: every non-root fetch answers with a
non-success status, so each level degrades to an empty sequence. -/
def wEnvDegrade : WalkEnv Unit :=
  { workspacesResp := .ok ⟨some [⟨1, "W1"⟩, ⟨2, "W2"⟩]⟩,
    appsResp := fun _ => .notOk 500 "E" "",
    tablesResp := fun _ => .notOk 500 "E" "",
    fieldsResp := fun _ => .notOk 500 "E" "",
    rowsResp := fun _ _ => .notOk 400 "" "" }

/-- Witness for C3: each degrade shape and the completed partial traversal at
a concrete environment. -/
theorem c3_nonroot_notok_degrades_witness :
    (truthyStr (some "a") && truthyStr (some "t")) = true ∧
    (wEnvDegrade.appsResp 1 = .notOk 500 "E" "" ∧
      processWorkspace wEnvDegrade false 5 ⟨1, "W1"⟩ =
        .ok ({ id := 1, name := "W1", applications := [] }, 0, 0, 0)) ∧
    (wEnvDegrade.tablesResp 10 = .notOk 500 "E" "" ∧
      processApp wEnvDegrade false 5 ⟨10, "A", "database"⟩ =
        .ok (some { id := 10, name := "A", type := "database", tables := [] }, 0, 0)) ∧
    (wEnvDegrade.fieldsResp 100 = .notOk 500 "E" "" ∧
      ∃ rc sr, processTable wEnvDegrade false 5 ⟨100, "T", 1⟩ =
        .ok ({ id := 100, name := "T", order := 1, fields := [],
               rowCount := rc, sampleRows := sr }, 0)) ∧
    (wEnvDegrade.workspacesResp = .ok ⟨some [⟨1, "W1"⟩, ⟨2, "W2"⟩]⟩ ∧
      ∃ res, readBaserowStructure false 5 (some "a") (some "t") wEnvDegrade = .ok res ∧
        List.Forall₂
          (fun w wi => ∃ a t f, processWorkspace wEnvDegrade false 5 w = .ok (wi, a, t, f))
          ((WorkspacesPage.mk (some [⟨1, "W1"⟩, ⟨2, "W2"⟩])).results.getD [])
          res.struct.workspaces) :=
  ⟨rfl,
    ⟨rfl, (c3_nonroot_notok_degrades wEnvDegrade false 5 (some "a") (some "t") rfl).1
      ⟨1, "W1"⟩ 500 "E" "" rfl⟩,
    ⟨rfl, (c3_nonroot_notok_degrades wEnvDegrade false 5 (some "a") (some "t") rfl).2.1
      ⟨10, "A", "database"⟩ 500 "E" "" rfl rfl⟩,
    ⟨rfl, (c3_nonroot_notok_degrades wEnvDegrade false 5 (some "a") (some "t") rfl).2.2.1
      ⟨100, "T", 1⟩ 500 "E" "" rfl rfl⟩,
    ⟨rfl, (c3_nonroot_notok_degrades wEnvDegrade false 5 (some "a") (some "t") rfl).2.2.2
      ⟨some [⟨1, "W1"⟩, ⟨2, "W2"⟩]⟩ rfl
      ⟨fun _ => rfl, fun _ => rfl, fun _ => rfl, fun _ _ => rfl⟩⟩⟩

/-- The raw count of applications a successful applications fetch returns for
a workspace (`appsData.length`); zero for a non-ok response. -/
def appsLen {ρ : Type} (env : WalkEnv ρ) (w : WorkspaceData) : Nat :=
  match env.appsResp w.id with
  | .ok l => l.length
  | _ => 0

theorem processApp_ok_some_type {ρ : Type} (env : WalkEnv ρ) (inc : Bool) (mr : Int)
    (a : AppData) (ai : AppInfo ρ) (tc fc : Nat)
    (h : processApp env inc mr a = .ok (some ai, tc, fc)) : ai.type = "database" := by
  unfold processApp at h
  split at h
  · simp at h
  · next hty =>
    have hdb : a.type = "database" := by simpa using hty
    split at h
    · simp at h
    · simp at h
    · simp only [Except.ok.injEq, Prod.mk.injEq, Option.some.injEq] at h
      rw [← h.1]
      exact hdb
    · next td heq =>
      rcases hpt : processTables env inc mr td with m | ⟨tis, fc'⟩ <;> rw [hpt] at h
      · simp at h
      · simp only [except_bind_ok, Except.ok.injEq, Prod.mk.injEq, Option.some.injEq] at h
        rw [← h.1]
        exact hdb

theorem processApps_types {ρ : Type} (env : WalkEnv ρ) (inc : Bool) (mr : Int) :
    ∀ (l : List AppData) ais tc fc, processApps env inc mr l = .ok (ais, tc, fc) →
      ∀ ai ∈ ais, ai.type = "database" := by
  intro l
  induction l with
  | nil =>
    intro ais tc fc h ai hai
    rw [processApps] at h
    simp only [Except.ok.injEq, Prod.mk.injEq] at h
    rw [← h.1] at hai
    cases hai
  | cons a as ih =>
    intro ais tc fc h ai hai
    rcases hpa : processApp env inc mr a with m | ⟨ai?, tca, fca⟩
    · rw [processApps, hpa] at h
      simp at h
    · rcases hpas : processApps env inc mr as with m | ⟨ais', tcs, fcs⟩
      · rw [processApps, hpa, hpas] at h
        simp at h
      · rw [processApps, hpa, hpas] at h
        simp only [except_bind_ok, Except.ok.injEq, Prod.mk.injEq] at h
        rw [← h.1] at hai
        rcases List.mem_append.mp hai with h1 | h2
        · cases ai? with
          | none => cases h1
          | some ai0 =>
            simp only [Option.toList_some, List.mem_singleton] at h1
            subst h1
            exact processApp_ok_some_type env inc mr a ai tca fca hpa
        · exact ih ais' tcs fcs hpas ai h2

theorem processWorkspaces_apps_count {ρ : Type} (env : WalkEnv ρ) (inc : Bool) (mr : Int) :
    ∀ (l : List WorkspaceData) wis ac tc fc,
      processWorkspaces env inc mr l = .ok (wis, ac, tc, fc) →
      ac = (l.map (appsLen env)).sum ∧
      ∀ wi ∈ wis, ∀ ai ∈ wi.applications, ai.type = "database" := by
  intro l
  induction l with
  | nil =>
    intro wis ac tc fc h
    rw [processWorkspaces] at h
    simp only [Except.ok.injEq, Prod.mk.injEq] at h
    obtain ⟨h1, h2, -⟩ := h
    subst h1
    subst h2
    exact ⟨rfl, by simp⟩
  | cons w ws ih =>
    intro wis ac tc fc h
    rcases hpw : processWorkspace env inc mr w with m | ⟨wi, acw, tcw, fcw⟩
    · rw [processWorkspaces, hpw] at h
      simp at h
    · rcases hpws : processWorkspaces env inc mr ws with m | ⟨wis', acs, tcs, fcs⟩
      · rw [processWorkspaces, hpw, hpws] at h
        simp at h
      · rw [processWorkspaces, hpw, hpws] at h
        simp only [except_bind_ok, Except.ok.injEq, Prod.mk.injEq] at h
        obtain ⟨h1, h2, -⟩ := h
        subst h1
        subst h2
        obtain ⟨hacs, htys⟩ := ih wis' acs tcs fcs hpws
        have hw : acw = appsLen env w ∧ ∀ ai ∈ wi.applications, ai.type = "database" := by
          unfold processWorkspace at hpw
          split at hpw
          · simp at hpw
          · simp at hpw
          · next s st b ha =>
            simp only [Except.ok.injEq, Prod.mk.injEq] at hpw
            obtain ⟨hw1, hw2, -⟩ := hpw
            constructor
            · rw [← hw2]
              simp [appsLen, ha]
            · rw [← hw1]
              simp
          · next appsData ha =>
            rcases hpa : processApps env inc mr appsData with m | ⟨ais, tca, fca⟩ <;>
              rw [hpa] at hpw
            · simp at hpw
            · simp only [except_bind_ok, Except.ok.injEq, Prod.mk.injEq] at hpw
              obtain ⟨hw1, hw2, -⟩ := hpw
              constructor
              · rw [← hw2]
                simp [appsLen, ha]
              · rw [← hw1]
                exact processApps_types env inc mr appsData ais tca fca hpa
        constructor
        · rw [List.map_cons, List.sum_cons, hw.1, hacs]
        · intro wi' hwi'
          rcases List.mem_cons.mp hwi' with rfl | h2
          · exact hw.2
          · exact htys wi' h2

/-- C8: applications whose type is not `database` never appear in any
workspace's nested applications, yet `summary.totalApplications` counts every
application returned by each successful applications fetch regardless of
type. -/
theorem c8_filter_vs_totalApplications {ρ : Type} (inc : Bool) (mr : Int)
    (apiUrl apiToken : Option String) (env : WalkEnv ρ) (page : WorkspacesPage)
    (res : WalkResult ρ)
    (hws : env.workspacesResp = .ok page)
    (hok : readBaserowStructure inc mr apiUrl apiToken env = .ok res) :
    (∀ wi ∈ res.struct.workspaces, ∀ ai ∈ wi.applications, ai.type = "database") ∧
    res.struct.summary.totalApplications =
      ((page.results.getD []).map (appsLen env)).sum := by
  simp only [readBaserowStructure, hws] at hok
  split at hok
  · simp at hok
  · rcases hpw : processWorkspaces env inc mr (page.results.getD [])
      with m | ⟨wis, ac, tc, fc⟩
    · rw [hpw] at hok
      simp at hok
    · rw [hpw] at hok
      simp only [Except.ok.injEq] at hok
      obtain ⟨hac, htys⟩ :=
        processWorkspaces_apps_count env inc mr (page.results.getD []) wis ac tc fc hpw
      rw [← hok]
      exact ⟨htys, hac⟩

/-- Environment for the C8 witness: one workspace whose applications fetch
returns one database and one non-database application. -/
def wEnvFilter : WalkEnv Unit :=
  { workspacesResp := .ok ⟨some [⟨1, "W"⟩]⟩,
    appsResp := fun _ => .ok [⟨10, "DB", "database"⟩, ⟨11, "X", "form"⟩],
    tablesResp := fun _ => .notOk 500 "E" "",
    fieldsResp := fun _ => .ok [],
    rowsResp := fun _ _ => .ok ⟨none, none⟩ }

/-- The walk result at `wEnvFilter`: the `form` application is filtered out
of the nested output but still counted. -/
def resFilter : WalkResult Unit :=
  { success := true,
    struct :=
      { workspaces := [⟨1, "W", [⟨10, "DB", "database", []⟩]⟩],
        summary := ⟨1, 2, 0, 0⟩ },
    message := mkWalkMessage 1 2 0 0 }

/-- Witness for C8 at a concrete environment. -/
theorem c8_filter_vs_totalApplications_witness :
    wEnvFilter.workspacesResp = .ok ⟨some [⟨1, "W"⟩]⟩ ∧
    readBaserowStructure false 5 (some "a") (some "t") wEnvFilter = .ok resFilter ∧
    ((∀ wi ∈ resFilter.struct.workspaces, ∀ ai ∈ wi.applications, ai.type = "database") ∧
      resFilter.struct.summary.totalApplications =
        (((WorkspacesPage.mk (some [⟨1, "W"⟩])).results.getD []).map
          (appsLen wEnvFilter)).sum) :=
  ⟨rfl, rfl,
    c8_filter_vs_totalApplications false 5 (some "a") (some "t") wEnvFilter
      ⟨some [⟨1, "W"⟩]⟩ resFilter rfl rfl⟩

end Baserow
